import Mathlib

/-!
Verification development for the `kachery-client` feeds module
(`src/kachery_client/_feeds.py`).

The Python source is shallowly embedded as executable Lean definitions:

* JSON values (`Json`) model Python's JSON-serializable values (floats are
  not modeled; no claim involves them).
* Python `str` values are modeled by Lean `String`, and the string
  operations used by the source (`startswith`, slicing, `split`, `join`,
  `replace`) are modeled over the code-point list `String.data`, which is
  exactly Python's view of a string as a sequence of code points.
* The daemon reached through HTTP (`_daemon_url` / `_http_post_json`,
  which live outside this repository) is modeled as an oracle
  `Daemon : NetRequest → Json`; every operation returns the list of
  network requests it issued, so "no network call is attempted" is the
  statement that this trace is `[]`.
* The local mutable-store collaborator (`_mutables._get`, also outside
  this repository) is modeled as an oracle `Registry : Json → Option Json`.
* Python exceptions (`raise`, failed `assert`, `KeyError`) are modeled
  with `Except String` / `Option`.
-/

/-- JSON values.  `num` carries an `Int`: the feeds module only ever puts
integers (positions, counts) and opaque structures into JSON, and no claim
involves floating point.  Objects are ordered key/value lists, which models
Python dict insertion order. -/
inductive Json where
  | null : Json
  | bool (b : Bool) : Json
  | num (n : Int) : Json
  | str (s : String) : Json
  | arr (l : List Json) : Json
  | obj (l : List (String × Json)) : Json

/-- Lookup of a key in a JSON object (`x[key]` / `x.get(key)` on a dict);
`none` when the key is absent or the value is not an object. -/
def jlookup (j : Json) (key : String) : Option Json :=
  match j with
  | .obj l => (l.find? (fun p => p.1 = key)).map Prod.snd
  | _ => none

/-- Python truthiness of a JSON value (`if not x['success']`). -/
def truthy : Json → Bool
  | .null => false
  | .bool b => b
  | .num n => n ≠ 0
  | .str s => s ≠ ""
  | .arr l => ¬ l.isEmpty
  | .obj l => ¬ l.isEmpty

/-! ### Python string operations, modeled over code-point lists -/

/-- Python `s.startswith(p)`. -/
def pyStartsWith (s p : String) : Bool := p.data.isPrefixOf s.data

/-- Python `s[n:]` for a nonnegative `n`. -/
def pyDrop (n : Nat) (s : String) : String := String.mk (s.data.drop n)

/-- Python `s.split(sep)` for a one-character separator: splits on every
occurrence, keeping empty pieces, and always returns at least one piece. -/
def splitChar (sep : Char) : List Char → List (List Char)
  | [] => [[]]
  | c :: rest =>
    if c = sep then [] :: splitChar sep rest
    else
      match splitChar sep rest with
      | [] => [[c]]
      | g :: gs => (c :: g) :: gs

/-- Python `sep.join(pieces)` for a one-character separator. -/
def intercalateChar (sep : Char) : List (List Char) → List Char
  | [] => []
  | [p] => p
  | p :: ps => p ++ sep :: intercalateChar sep ps

/-- Python `s.replace(':', '')`: removes every colon. -/
def stripColons (l : List Char) : List Char := l.filter (fun c => c ≠ ':')

/-! ### SHA-1 (`hashlib.sha1(...).hexdigest()`)

The Python source hashes through `hashlib`; we embed the SHA-1 algorithm
itself, over `Nat` with explicit reduction modulo `2 ^ 32`. -/

/-- Truncation to a 32-bit word. -/
def w32 (n : Nat) : Nat := n % 4294967296

/-- Left rotation of a 32-bit word (`n < 2 ^ 32` expected). -/
def rotl (b n : Nat) : Nat := (n % 2 ^ (32 - b)) * 2 ^ b + n / 2 ^ (32 - b)

/-- Bitwise complement of a 32-bit word. -/
def bnot32 (n : Nat) : Nat := 4294967295 - n

/-- Big-endian 32-bit words from a byte list (length a multiple of 4). -/
def bytesToWords : List Nat → List Nat
  | b0 :: b1 :: b2 :: b3 :: rest => (((b0 * 256 + b1) * 256 + b2) * 256 + b3) :: bytesToWords rest
  | _ => []

/-- Message-schedule extension: `acc` holds the words produced so far in
reverse order; `k` more words are produced. -/
def sha1ExtendAux : List Nat → Nat → List Nat
  | acc, 0 => acc.reverse
  | acc, k + 1 =>
    sha1ExtendAux (rotl 1 (((acc.getD 2 0) ^^^ (acc.getD 7 0)) ^^^ ((acc.getD 13 0) ^^^ (acc.getD 15 0))) :: acc) k

/-- The 80-entry message schedule from a 16-word chunk. -/
def sha1Extend (ws : List Nat) : List Nat := sha1ExtendAux ws.reverse 64

/-- SHA-1 round function. -/
def sha1F (i b c d : Nat) : Nat :=
  if i < 20 then (b &&& c) ||| ((bnot32 b) &&& d)
  else if i < 40 then (b ^^^ c) ^^^ d
  else if i < 60 then ((b &&& c) ||| (b &&& d)) ||| (c &&& d)
  else (b ^^^ c) ^^^ d

/-- SHA-1 round constants. -/
def sha1K (i : Nat) : Nat :=
  if i < 20 then 1518500249
  else if i < 40 then 1859775393
  else if i < 60 then 2400959708
  else 3395469782

/-- The 80 SHA-1 rounds over the schedule `ws`. -/
def sha1Rounds : Nat → List Nat → Nat × Nat × Nat × Nat × Nat → Nat × Nat × Nat × Nat × Nat
  | _, [], s => s
  | i, w :: ws, (a, b, c, d, e) =>
    let temp := w32 (rotl 5 a + sha1F i b c d + e + sha1K i + w)
    sha1Rounds (i + 1) ws (temp, a, rotl 30 b, c, d)

/-- Processing of 64-byte chunks; `fuel` bounds the number of chunks
(structural recursion so that the kernel can evaluate digests). -/
def sha1ChunksAux : Nat → List Nat → Nat × Nat × Nat × Nat × Nat → Nat × Nat × Nat × Nat × Nat
  | 0, _, h => h
  | _, [], h => h
  | fuel + 1, bytes, (h0, h1, h2, h3, h4) =>
    let chunk := bytes.take 64
    let (a, b, c, d, e) := sha1Rounds 0 (sha1Extend (bytesToWords chunk)) (h0, h1, h2, h3, h4)
    sha1ChunksAux fuel (bytes.drop 64)
      (w32 (h0 + a), w32 (h1 + b), w32 (h2 + c), w32 (h3 + d), w32 (h4 + e))

/-- Processing of all 64-byte chunks (the padded input's length is a
multiple of 64). -/
def sha1Chunks (bytes : List Nat) (h : Nat × Nat × Nat × Nat × Nat) : Nat × Nat × Nat × Nat × Nat :=
  sha1ChunksAux (bytes.length / 64) bytes h

/-- Big-endian 8-byte encoding of the bit length. -/
def beBytes8 (n : Nat) : List Nat :=
  [n / 2 ^ 56 % 256, n / 2 ^ 48 % 256, n / 2 ^ 40 % 256, n / 2 ^ 32 % 256,
   n / 2 ^ 24 % 256, n / 2 ^ 16 % 256, n / 2 ^ 8 % 256, n % 256]

/-- SHA-1 padding: `0x80`, zeros to 56 mod 64, then the bit length. -/
def sha1Pad (msg : List Nat) : List Nat :=
  msg ++ 128 :: List.replicate ((119 - msg.length % 64) % 64) 0 ++ beBytes8 (msg.length * 8)

/-- Lowercase hexadecimal digit. -/
def hexL (n : Nat) : Char :=
  if n < 10 then Char.ofNat (48 + n) else Char.ofNat (87 + n)

/-- Eight lowercase hex digits of a 32-bit word. -/
def wordHex (n : Nat) : List Char :=
  [hexL (n / 2 ^ 28 % 16), hexL (n / 2 ^ 24 % 16), hexL (n / 2 ^ 20 % 16), hexL (n / 2 ^ 16 % 16),
   hexL (n / 2 ^ 12 % 16), hexL (n / 2 ^ 8 % 16), hexL (n / 2 ^ 4 % 16), hexL (n % 16)]

/-- SHA-1 hex digest of a byte list. -/
def sha1Hex (bytes : List Nat) : String :=
  let (h0, h1, h2, h3, h4) :=
    sha1Chunks (sha1Pad bytes) (1732584193, 4023233417, 2562383102, 271733878, 3285377520)
  String.mk (wordHex h0 ++ wordHex h1 ++ wordHex h2 ++ wordHex h3 ++ wordHex h4)

/-! ### UTF-8 encoding (`txt.encode('utf-8')`) -/

/-- UTF-8 bytes of a code-point value. -/
def utf8EncodeNat (n : Nat) : List Nat :=
  if n < 128 then [n]
  else if n < 2048 then [192 + n / 64, 128 + n % 64]
  else if n < 65536 then [224 + n / 4096, 128 + n / 64 % 64, 128 + n % 64]
  else [240 + n / 262144, 128 + n / 4096 % 64, 128 + n / 64 % 64, 128 + n % 64]

/-- UTF-8 bytes of one code point. -/
def utf8EncodeChar (c : Char) : List Nat := utf8EncodeNat c.toNat

/-- UTF-8 bytes of a code-point list. -/
def utf8Encode (l : List Char) : List Nat := (l.map utf8EncodeChar).flatten

/-- `_sha1_of_string` (lines 86-89): SHA-1 hex digest of the UTF-8 encoding. -/
def _sha1_of_string (txt : String) : String := sha1Hex (utf8Encode txt.data)

set_option maxRecDepth 8192


/-! ### Canonical JSON (`json.dumps(obj, sort_keys=True, separators=(',', ':'))`) -/

/-- Lowercase `\uXXXX` escape of a BMP code unit. -/
def uEsc4 (n : Nat) : List Char :=
  ['\\', 'u', hexL (n / 4096 % 16), hexL (n / 256 % 16), hexL (n / 16 % 16), hexL (n % 16)]

/-- Escaping of one character, as Python's `json.dumps` does with the
default `ensure_ascii=True`: short escapes for the common control
characters, `\uXXXX` (with surrogate pairs beyond the BMP) for other
control and all non-ASCII characters. -/
def jsonEscapeChar (c : Char) : List Char :=
  if c = '"' then ['\\', '"']
  else if c = '\\' then ['\\', '\\']
  else if c.toNat = 8 then ['\\', 'b']
  else if c.toNat = 9 then ['\\', 't']
  else if c.toNat = 10 then ['\\', 'n']
  else if c.toNat = 12 then ['\\', 'f']
  else if c.toNat = 13 then ['\\', 'r']
  else if c.toNat < 32 then uEsc4 c.toNat
  else if c.toNat < 127 then [c]
  else if c.toNat < 65536 then uEsc4 c.toNat
  else uEsc4 (55296 + (c.toNat - 65536) / 1024) ++ uEsc4 (56320 + (c.toNat - 65536) % 1024)

/-- Escaped character list of a string body. -/
def jsonEscape (l : List Char) : List Char := (l.map jsonEscapeChar).flatten

/-- A JSON string literal. -/
def jsonStrLit (s : String) : String := String.mk ('"' :: jsonEscape s.data ++ ['"'])

/-- Ordering of object entries by key, as `sort_keys=True` sorts them. -/
def keyLE (a b : String × String) : Prop := a.1 ≤ b.1

instance : DecidableRel keyLE := fun a b => inferInstanceAs (Decidable (a.1 ≤ b.1))

instance : IsTotal (String × String) keyLE := ⟨fun a b => le_total a.1 b.1⟩

instance : IsTrans (String × String) keyLE := ⟨fun _ _ _ => le_trans⟩

/-- Comma-joined `"key":value` entries of an object body (entries already
serialized). -/
def dumpsObj : List (String × String) → String
  | [] => ""
  | [(k, v)] => jsonStrLit k ++ ":" ++ v
  | (k, v) :: rest => jsonStrLit k ++ ":" ++ v ++ "," ++ dumpsObj rest

mutual

/-- `json.dumps(obj, sort_keys=True, separators=(',', ':'))`: the compact
serialization with every object's keys sorted.  (`sorted` in Python is a
stable sort keyed here only by the key string, so any stable sort gives
the same list; object values are serialized entry-wise before sorting,
which commutes with sorting because sorting compares keys only.) -/
def dumps : Json → String
  | .null => "null"
  | .bool b => if b then "true" else "false"
  | .num n => toString n
  | .str s => jsonStrLit s
  | .arr l => "[" ++ dumpsList l ++ "]"
  | .obj kvs => "\x7b" ++ dumpsObj (List.insertionSort keyLE (dumpsPairs kvs)) ++ "\x7d"

/-- Comma-joined serializations of array elements. -/
def dumpsList : List Json → String
  | [] => ""
  | [x] => dumps x
  | x :: y :: xs => dumps x ++ "," ++ dumpsList (y :: xs)

/-- Entry-wise serialization of object values. -/
def dumpsPairs : List (String × Json) → List (String × String)
  | [] => []
  | (k, v) :: rest => (k, dumps v) :: dumpsPairs rest

end

/-- `_sha1_of_object` (lines 91-93): SHA-1 of the canonical JSON text. -/
def _sha1_of_object (obj : Json) : String := _sha1_of_string (dumps obj)

/-- A subfeed name is a string or a structured (JSON) name
(`Subfeed.__init__` branches on `isinstance(self._subfeed_name, str)`). -/
inductive SubfeedName where
  | str (s : String) : SubfeedName
  | obj (j : Json) : SubfeedName

/-- `_subfeed_hash` (lines 78-84). -/
def _subfeed_hash : SubfeedName → String
  | .str s => if pyStartsWith s "~" then pyDrop 1 s else _sha1_of_string s
  | .obj j => _sha1_of_object j


/-! ### Percent encoding (`urllib.parse.quote` / `urllib.parse.unquote`) -/

/-- The replacement character U+FFFD used by Python for undecodable
percent-escapes (`errors='replace'`). -/
def replChar : Char := Char.ofNat 65533

/-- Characters `quote` never encodes: ASCII letters, digits, `_.-~`, and
the default `safe='/'`. -/
def quoteSafe (c : Char) : Bool :=
  ('A' ≤ c && c ≤ 'Z') || ('a' ≤ c && c ≤ 'z') || ('0' ≤ c && c ≤ '9') ||
  c = '_' || c = '.' || c = '-' || c = '~' || c = '/'

/-- Uppercase hexadecimal digit (as `quote` emits). -/
def hexU (n : Nat) : Char :=
  if n < 10 then Char.ofNat (48 + n) else Char.ofNat (55 + n)

/-- `quote` of one character: kept when safe, otherwise each UTF-8 byte
becomes `%XX`. -/
def quoteChar (c : Char) : List Char :=
  if quoteSafe c then [c]
  else (utf8EncodeChar c).foldr (fun b acc => '%' :: hexU (b / 16) :: hexU (b % 16) :: acc) []

/-- `urllib.parse.quote(s)` (default `safe='/'`), over code points. -/
def quoteChars (l : List Char) : List Char := (l.map quoteChar).flatten

/-- `urllib.parse.quote(s)` on strings. -/
def pyQuote (s : String) : String := String.mk (quoteChars s.data)

/-- Hexadecimal digit test (`unquote` accepts both cases). -/
def isHexDigit (c : Char) : Bool :=
  ('0' ≤ c && c ≤ '9') || ('a' ≤ c && c ≤ 'f') || ('A' ≤ c && c ≤ 'F')

/-- Value of a hexadecimal digit. -/
def hexVal (c : Char) : Nat :=
  if '0' ≤ c && c ≤ '9' then c.toNat - 48
  else if 'a' ≤ c && c ≤ 'f' then c.toNat - 87
  else c.toNat - 55

/-- One token of a percent-encoded string: a literal character or a byte
from a valid `%XX` escape. -/
inductive PctUnit where
  | lit (c : Char) : PctUnit
  | byte (b : Nat) : PctUnit

/-- One step of the percent-escape tokenizer.  The state is `none`
between tokens, `some none` after a `%`, and `some (some a)` after `%`
and one hex digit. -/
def pctLexStep (st : Option (Option Char) × List PctUnit) (c : Char) :
    Option (Option Char) × List PctUnit :=
  match st with
  | (none, out) =>
    if c = '%' then (some none, out) else (none, out ++ [.lit c])
  | (some none, out) =>
    if isHexDigit c then (some (some c), out)
    else if c = '%' then (some none, out ++ [.lit '%'])
    else (none, out ++ [.lit '%', .lit c])
  | (some (some a), out) =>
    if isHexDigit c then (none, out ++ [.byte (hexVal a * 16 + hexVal c)])
    else if c = '%' then (some none, out ++ [.lit '%', .lit a])
    else (none, out ++ [.lit '%', .lit a, .lit c])

/-- Tokenization of a percent-encoded string: a `%` followed by two hex
digits is a byte; anything else is left as literal characters.  It
agrees with Python's `unquote` scanner on every valid escape — in
particular on all of `quote`'s output; on a malformed escape Python
re-examines the following characters while this tokenizer emits them as
literals directly, a difference kept so evaluation stays structural. -/
def pctLex (l : List Char) : List PctUnit :=
  match l.foldl pctLexStep (none, []) with
  | (none, out) => out
  | (some none, out) => out ++ [.lit '%']
  | (some (some a), out) => out ++ [.lit '%', .lit a]

/-- One step of a streaming UTF-8 decoder with U+FFFD replacement.  The
state is `none` between characters and `some (need, acc, minv)` inside a
multi-byte sequence: `need` continuation bytes are still expected, `acc`
is the value accumulated so far, and `minv` is the smallest code point
the sequence is allowed to produce (rejecting overlong forms).  The
second component is the output produced so far. -/
def utf8Step (st : Option (Nat × Nat × Nat) × List Char) (b : Nat) :
    Option (Nat × Nat × Nat) × List Char :=
  match st with
  | (none, out) =>
    if b < 128 then (none, out ++ [Char.ofNat b])
    else if b < 194 then (none, out ++ [replChar])
    else if b < 224 then (some (1, b - 192, 128), out)
    else if b < 240 then (some (2, b - 224, 2048), out)
    else if b < 245 then (some (3, b - 240, 65536), out)
    else (none, out ++ [replChar])
  | (some (need, acc, minv), out) =>
    if 128 ≤ b ∧ b < 192 then
      if need = 1 then
        (none, out ++ [if acc * 64 + (b - 128) < minv ∨
                          (55296 ≤ acc * 64 + (b - 128) ∧ acc * 64 + (b - 128) < 57344) ∨
                          1114112 ≤ acc * 64 + (b - 128)
                       then replChar else Char.ofNat (acc * 64 + (b - 128))])
      else (some (need - 1, acc * 64 + (b - 128), minv), out)
    else (none, out ++ [replChar])

/-- UTF-8 decoding with U+FFFD replacement for invalid sequences
(overlong forms, surrogates, out-of-range and truncated sequences).  It
agrees with Python's `errors='replace'` decoder on every valid byte
sequence — in particular on everything `quote` can produce; on invalid
sequences Python resynchronizes at the offending byte while this decoder
consumes it, a difference kept so evaluation stays structural. -/
def utf8Decode (l : List Nat) : List Char :=
  match l.foldl utf8Step (none, []) with
  | (none, out) => out
  | (some _, out) => out ++ [replChar]

/-- Grouping of tokens: maximal runs of bytes (accumulated in `pending`,
reversed) are UTF-8 decoded; literals pass through. -/
def pctFlushAux : List Nat → List PctUnit → List Char
  | pending, [] => utf8Decode pending.reverse
  | pending, .byte b :: rest => pctFlushAux (b :: pending) rest
  | pending, .lit c :: rest => utf8Decode pending.reverse ++ c :: pctFlushAux [] rest

/-- `urllib.parse.unquote(s)`, over code points. -/
def unquoteChars (l : List Char) : List Char := pctFlushAux [] (pctLex l)

/-- `urllib.parse.unquote(s)` on strings. -/
def pyUnquote (s : String) : String := String.mk (unquoteChars s.data)


/-! ### `_parse_feed_uri` (lines 357-373) -/

/-- `_parse_feed_uri`: failed `assert`s are `none`.  The third component
is the constant position `0` the source returns. -/
def _parse_feed_uri (uri : String) : Option (String × Option String × Nat) :=
  let listA := splitChar '?' uri.data
  -- `assert len(listA) >= 1` cannot fail: `split` always returns a piece
  let list0 := splitChar '/' (listA.headD [])
  if list0.length ≥ 3 then
    if stripColons (list0.headD []) = "feed".data then
      let feed_id := list0.getD 2 []
      let subfeed_name := intercalateChar '/' (list0.drop 3)
      some (String.mk feed_id,
            if subfeed_name.isEmpty then none else some (String.mk (unquoteChars subfeed_name)),
            0)
    else none
  else none


/-! ### The client model: `Feed`, `Subfeed`, and the daemon/registry oracles -/

/-- One JSON-over-HTTP POST to the daemon (`_http_post_json`); `endpoint`
is the path after the daemon URL. -/
structure NetRequest where
  endpoint : String
  body : Json

/-- The external daemon (Transport Port): an oracle giving the JSON
response to each request. -/
def Daemon : Type := NetRequest → Json

/-- The external local mutable store (`_mutables._get`), keyed by JSON. -/
def Registry : Type := Json → Option Json

/-- JSON of an optional string (Python `None` → JSON `null`). -/
def optStr : Option String → Json
  | none => Json.null
  | some s => Json.str s

/-- Python `str()` of an optional string, as f-strings interpolate it. -/
def pyShowOpt : Option String → String
  | none => "None"
  | some s => s

/-- The state of a `Feed` object (lines 16-38).  Exactly one of `feed_id`
(live) and `snapshot_object` (snapshot) is populated.  `is_writeable` is
a `Bool` because both constructor branches leave it resolved (the live
branch runs `_initialize` before returning). -/
structure FeedM where
  feed_uri : String
  feed_id : Option String
  is_writeable : Bool
  is_snapshot : Bool
  snapshot_object : Option Json

/-- The `sha1://` (snapshot) branch of `Feed.__init__` (lines 30-36):
`payload` stands for the JSON blob `_load_json(uri)` fetched; loading it
is the external content store's job. -/
def mkSnapshotFeed (uri : String) (payload : Json) : FeedM :=
  { feed_uri := uri
    feed_id := none
    is_writeable := false
    is_snapshot := true
    snapshot_object := some payload }

/-- The state of a `Subfeed` object (lines 96-112).  The source also
caches `feed._is_writeable` in the subfeed, but every use goes through
the `is_writeable` property, which re-reads the feed's field, so the
cache is not part of the model. -/
structure SubfeedM where
  feed : FeedM
  subfeed_name : SubfeedName
  channel : String
  position : Nat
  subfeed_hash : String
  subfeed_name_str : String

/-- `Feed.load_subfeed` / `Subfeed.__init__` (lines 60-61, 96-115): pure
construction, no network (`Subfeed._initialize` is `pass`). -/
def load_subfeed (feed : FeedM) (subfeed_name : SubfeedName) (position : Nat)
    (channel : String) : SubfeedM :=
  let hash := _subfeed_hash subfeed_name
  { feed := feed
    subfeed_name := subfeed_name
    channel := channel
    position := position
    subfeed_hash := hash
    subfeed_name_str :=
      match subfeed_name with
      | .str s => s
      | .obj _ => "~" ++ hash }

/-- The `Subfeed.is_snapshot` property (lines 227-229). -/
def SubfeedM.is_snapshot (sf : SubfeedM) : Bool := sf.feed.is_snapshot

/-- The `Subfeed.is_writeable` property (lines 231-233). -/
def SubfeedM.is_writeable (sf : SubfeedM) : Bool := sf.feed.is_writeable

/-- `Subfeed.set_position` (lines 139-140): writes the cursor verbatim. -/
def set_position (sf : SubfeedM) (position : Nat) : SubfeedM :=
  { sf with position := position }

/-- The `Subfeed.uri` property (lines 117-125). -/
def subfeed_uri (sf : SubfeedM) : Option String :=
  if pyStartsWith sf.feed.feed_uri "feed://" then
    some (sf.feed.feed_uri ++ "/" ++ pyQuote sf.subfeed_name_str)
  else if pyStartsWith sf.feed.feed_uri "sha1://" then
    some (sf.feed.feed_uri ++ "?subfeedName=" ++ pyQuote sf.subfeed_name_str)
  else none

/-- `Subfeed._get_snapshot_messages` (lines 156-162): the
`try/except: return []` is modeled by an option chain with `[]` default;
a `messages` value that is not a JSON array also defaults to `[]` (in
Python such a value would flow onward untyped — no claim involves one). -/
def _get_snapshot_messages (sf : SubfeedM) : List Json :=
  match sf.feed.snapshot_object with
  | none => []
  | some snap =>
    match jlookup snap "subfeeds" with
    | none => []
    | some subs =>
      match jlookup subs sf.subfeed_hash with
      | none => []
      | some entry =>
        match jlookup entry "messages" with
        | some (.arr msgs) => msgs
        | _ => []

/-- `Subfeed.get_num_local_messages` (lines 142-154).  The live branch
returns the daemon's `numMessages` JSON value as-is (the source does not
coerce it); the snapshot branch counts the snapshot list. -/
def get_num_local_messages (d : Daemon) (sf : SubfeedM) : Except String Json × List NetRequest :=
  if ¬ sf.is_snapshot then
    let req : NetRequest :=
      ⟨"feed/getNumLocalMessages",
       Json.obj [("feedId", optStr sf.feed.feed_id), ("subfeedHash", .str sf.subfeed_hash)]⟩
    let x := d req
    match jlookup x "success" with
    | none => (.error "KeyError: success", [req])
    | some sv =>
      if truthy sv then
        match jlookup x "numMessages" with
        | none => (.error "KeyError: numMessages", [req])
        | some nm => (.ok nm, [req])
      else
        (.error ("Unable to get num. messages for subfeed: " ++ pyShowOpt sf.feed.feed_id
                 ++ " " ++ sf.subfeed_name_str), [req])
  else
    (.ok (.num (_get_snapshot_messages sf).length), [])

/-- One entry of a subfeed watch (the caller of `_watch_for_new_messages`
in this module always passes `subfeedHash`, never `subfeedName`, so the
hash field is modeled directly). -/
structure WatchEntry where
  feedId : Option String
  subfeedHash : String
  position : Nat

/-- `_watch_for_new_messages` (lines 336-355): builds the request, posts
it, raises unless the response is marked successful, and returns the
response's `messages` value.  Error text carries the serialized daemon
payload where Python interpolates the raw value. -/
def _watch_for_new_messages (d : Daemon) (subfeed_watches : List (String × WatchEntry))
    (wait_msec : Nat) (channel : String) (signed : Bool) (max_num_messages : Nat) :
    Except String Json × List NetRequest :=
  let subfeedWatches2 := Json.obj (subfeed_watches.map fun p =>
    (p.1, Json.obj [("feedId", optStr p.2.feedId),
                    ("subfeedHash", .str p.2.subfeedHash),
                    ("channelName", .str channel),
                    ("position", .num p.2.position)]))
  let req : NetRequest :=
    ⟨"feed/watchForNewMessages",
     Json.obj [("subfeedWatches", subfeedWatches2), ("waitMsec", .num wait_msec),
               ("signed", .bool signed), ("maxNumMessages", .num max_num_messages)]⟩
  let x := d req
  match jlookup x "success" with
  | none => (.error "KeyError: success", [req])
  | some sv =>
    if truthy sv then
      match jlookup x "messages" with
      | none => (.error "KeyError: messages", [req])
      | some ms => (.ok ms, [req])
    else
      (.error ("Unable to watch for new messages: "
               ++ (match jlookup x "error" with
                   | some e => dumps e
                   | none => "KeyError: error")), [req])

/-- `Subfeed.get_next_messages` (lines 164-187).  Returns the messages
(or the raised error), the updated subfeed state, and the issued
requests.  Python slice `messages[p:p+k]` for the `Nat` cursor is
`(messages.drop p).take k`, and `messages[p:]` is `messages.drop p`. -/
def get_next_messages (d : Daemon) (sf : SubfeedM) (wait_msec : Nat) (signed : Bool)
    (max_num_messages : Nat) (advance_position : Bool) :
    Except String (List Json) × SubfeedM × List NetRequest :=
  if ¬ sf.is_snapshot then
    match _watch_for_new_messages d
        [("watch", ⟨sf.feed.feed_id, sf.subfeed_hash, sf.position⟩)]
        wait_msec sf.channel signed max_num_messages with
    | (.error e, tr) => (.error e, sf, tr)
    | (.ok x, tr) =>
      match (jlookup x "watch").getD (.arr []) with
      | .arr y =>
        (.ok y,
         { sf with position := if advance_position then sf.position + y.length else sf.position },
         tr)
      | _ => (.error "TypeError: len", sf, tr)
  else
    let messages := _get_snapshot_messages sf
    let ret :=
      if max_num_messages > 0 then (messages.drop sf.position).take max_num_messages
      else messages.drop sf.position
    (.ok ret,
     { sf with position := if advance_position then sf.position + ret.length else sf.position },
     [])

/-- `Subfeed.get_next_message` (lines 189-195): the `messages is None`
check is vacuous here because `get_next_messages` returns a list or
raises. -/
def get_next_message (d : Daemon) (sf : SubfeedM) (wait_msec : Nat) (signed : Bool)
    (advance_position : Bool) : Except String (Option Json) × SubfeedM × List NetRequest :=
  match get_next_messages d sf wait_msec signed 1 advance_position with
  | (.error e, sf', tr) => (.error e, sf', tr)
  | (.ok msgs, sf', tr) => (.ok msgs.head?, sf', tr)

/-- `Subfeed.append_messages` (lines 246-258).  The subfeed state is
returned unchanged from every branch: the source mutates no client field
on append. -/
def append_messages (d : Daemon) (sf : SubfeedM) (messages : List Json) :
    Except String Unit × SubfeedM × List NetRequest :=
  if ¬ sf.is_writeable then
    (.error "Cannot append messages to a readonly feed", sf, [])
  else
    let req : NetRequest :=
      ⟨"feed/appendMessages",
       Json.obj [("feedId", optStr sf.feed.feed_id), ("subfeedHash", .str sf.subfeed_hash),
                 ("messages", .arr messages)]⟩
    let x := d req
    match jlookup x "success" with
    | none => (.error "KeyError: success", sf, [req])
    | some sv =>
      if truthy sv then (.ok (), sf, [req])
      else
        (.error ("Unable to append messages: "
                 ++ (match jlookup x "error" with
                     | some e => dumps e
                     | none => "None")), sf, [req])

/-- `Subfeed.append_message` (lines 243-244). -/
def append_message (d : Daemon) (sf : SubfeedM) (message : Json) :
    Except String Unit × SubfeedM × List NetRequest :=
  append_messages d sf [message]

/-- `_get_feed_id(name, create=False)` (lines 292-299): a registry miss
(or a non-string entry) raises. -/
def _get_feed_id_no_create (r : Registry) (feed_name : String) : Except String String :=
  match r (Json.obj [("type", .str "feed_id_for_name"), ("feed_name", .str feed_name)]) with
  | some (.str fid) => .ok fid
  | _ => .error ("Unable to load feed with name: " ++ feed_name)

/-- The `feed://` branch of `_delete_feed` (lines 275-285). -/
def _delete_feed_uri (d : Daemon) (feed_uri : String) : Except String Unit × List NetRequest :=
  match _parse_feed_uri feed_uri with
  | none => (.error "InvalidUri", [])
  | some (feed_id, subfeed_name, _) =>
    match subfeed_name with
    | some _ => (.error "Cannot specify subfeed name when deleting feed", [])
    | none =>
      let req : NetRequest := ⟨"feed/deleteFeed", Json.obj [("feedId", .str feed_id)]⟩
      let x := d req
      match jlookup x "success" with
      | none => (.error "KeyError: success", [req])
      | some sv =>
        if truthy sv then (.ok (), [req])
        else
          (.error ("Unable to delete feed " ++ feed_id ++ ": "
                   ++ (match jlookup x "error" with
                       | some e => dumps e
                       | none => "None")), [req])

/-- `_delete_feed` (lines 274-290).  The source's recursive call always
carries a `feed://` URI, so it is unfolded into `_delete_feed_uri`. -/
def _delete_feed (d : Daemon) (r : Registry) (feed_name_or_uri : String) :
    Except String Unit × List NetRequest :=
  if pyStartsWith feed_name_or_uri "feed://" then
    _delete_feed_uri d feed_name_or_uri
  else
    match _get_feed_id_no_create r feed_name_or_uri with
    | .error e => (.error e, [])
    | .ok fid => _delete_feed_uri d ("feed://" ++ fid)

/-- `Feed.delete` (lines 62-63). -/
def FeedM.delete (d : Daemon) (r : Registry) (f : FeedM) : Except String Unit × List NetRequest :=
  _delete_feed d r f.feed_uri

/-! ### The stream iterator (`Subfeed.message_stream`, lines 197-225) -/

/-- The state of the `custom_iterator`: the parent subfeed (whose
`_position` the iterator mutates directly), the buffered messages, and
the buffer-relative offset. -/
structure IterState where
  parent : SubfeedM
  messages : List Json
  relative_position : Nat

/-- `custom_iterator._load_messages` (lines 205-210): one non-advancing
`get_next_messages(wait_msec=5000)` whose results are appended to the
buffer.  (The `messages is None` guard is vacuous: `get_next_messages`
returns a list or raises.) -/
def iter_load_messages (d : Daemon) (signed : Bool) (s : IterState) :
    Except String IterState × List NetRequest :=
  match get_next_messages d s.parent 5000 signed 0 false with
  | (.error e, _, tr) => (.error e, tr)
  | (.ok msgs, parent', tr) =>
    (.ok { s with parent := parent', messages := s.messages ++ msgs }, tr)

/-- The outcome of one pass through `custom_iterator.__next__`'s `while`
loop: a yielded element, `StopIteration`, one more pass after the
`time.sleep(0.05)` (live feeds only), or a propagated exception. -/
inductive NextOutcome where
  | yield (m : Json) (s : IterState) : NextOutcome
  | stop : NextOutcome
  | retry (s : IterState) : NextOutcome
  | err (e : String) : NextOutcome

/-- The yield epilogue of `__next__` (lines 222-224): the parent's
position and the relative position each advance by one, and the element
at the old relative position is returned. -/
def iterYield (s : IterState) : NextOutcome :=
  .yield (s.messages.getD s.relative_position Json.null)
    { s with
      parent := { s.parent with position := s.parent.position + 1 }
      relative_position := s.relative_position + 1 }

/-- One pass of `custom_iterator.__next__` (lines 215-224): if the buffer
has an element at the relative position, yield it; otherwise reload, then
yield, stop (snapshot) or sleep-and-retry (live). -/
def streamNext (d : Daemon) (signed : Bool) (s : IterState) : NextOutcome :=
  if s.relative_position < s.messages.length then iterYield s
  else
    match iter_load_messages d signed s with
    | (.error e, _) => .err e
    | (.ok s2, _) =>
      if s2.relative_position < s2.messages.length then iterYield s2
      else if s2.parent.is_snapshot then .stop
      else .retry s2

/-! ### Concrete fixtures (shared by witnesses and counterexamples) -/

/-- A snapshot payload with one subfeed (hash `"abc"`) of three messages. -/
def snapPayload : Json :=
  Json.obj [("subfeeds",
    Json.obj [("abc", Json.obj [("subfeedHash", .str "abc"),
                                ("messages", .arr [.num 1, .num 2, .num 3])])])]

/-- A snapshot `Feed`. -/
def snapFeed : FeedM := mkSnapshotFeed "sha1://feedsnap" snapPayload

/-- A subfeed of the snapshot feed addressing hash `"abc"`. -/
def snapSubfeed : SubfeedM := load_subfeed snapFeed (.str "~abc") 0 "*local*"

/-- A subfeed of the snapshot feed addressing a hash absent from it. -/
def snapSubfeedMissing : SubfeedM := load_subfeed snapFeed (.str "~zzz") 0 "*local*"

/-- A live, writeable `Feed` (fields as `Feed.__init__` + `_initialize`
leave them for a writeable feed `feed://abc`). -/
def liveFeed : FeedM :=
  { feed_uri := "feed://abc", feed_id := some "abc", is_writeable := true,
    is_snapshot := false, snapshot_object := none }

/-- A subfeed of the live feed. -/
def liveSubfeed : SubfeedM := load_subfeed liveFeed (.str "~def0") 0 "*local*"

/-- A daemon oracle answering success with no new messages. -/
def okDaemon : Daemon := fun _ =>
  Json.obj [("success", .bool true), ("messages", .obj [("watch", .arr [])]),
            ("numMessages", .num 7)]

/-- A daemon oracle reporting failure with an error payload. -/
def failDaemon : Daemon := fun _ =>
  Json.obj [("success", .bool false), ("error", .str "nope")]

/-- An empty naming registry. -/
def emptyRegistry : Registry := fun _ => none

/-- An iterator state over the snapshot subfeed with one buffered message. -/
def snapIterMid : IterState :=
  { parent := snapSubfeed, messages := [Json.num 1], relative_position := 0 }

/-- An exhausted iterator state over the snapshot subfeed at position 3. -/
def snapIterEnd : IterState :=
  { parent := set_position snapSubfeed 3, messages := [], relative_position := 0 }

/-- An iterator state over the live subfeed with an empty buffer. -/
def liveIter : IterState :=
  { parent := liveSubfeed, messages := [], relative_position := 0 }

/-- A live feed whose id contains a slash (used against C9 as stated). -/
def slashFeed : FeedM :=
  { feed_uri := "feed://a/b", feed_id := some "a/b", is_writeable := true,
    is_snapshot := false, snapshot_object := none }

/-! ### C1: appending to a non-writeable feed fails before any network call -/

/-- C1: for every Subfeed whose owning Feed is not writeable (in
particular any Subfeed of a snapshot Feed), `append_messages` (and
`append_message`) raises the read-only-feed error with an empty request
trace — no Transport Port request is issued — and the subfeed state is
unchanged. -/
theorem C1_append_readonly_fails_before_network :
    (∀ (d : Daemon) (sf : SubfeedM) (messages : List Json), sf.is_writeable = false →
      append_messages d sf messages = (.error "Cannot append messages to a readonly feed", sf, []))
    ∧ (∀ (d : Daemon) (sf : SubfeedM) (message : Json), sf.is_writeable = false →
      append_message d sf message = (.error "Cannot append messages to a readonly feed", sf, []))
    ∧ (∀ (uri : String) (payload : Json) (name : SubfeedName) (pos : Nat) (ch : String),
      (load_subfeed (mkSnapshotFeed uri payload) name pos ch).is_writeable = false) := by
  refine ⟨fun d sf messages h => ?_, fun d sf message h => ?_, fun uri payload name pos ch => ?_⟩
  · simp [append_messages, h]
  · simp [append_message, append_messages, h]
  · rfl

/-- C1 witness: a concrete snapshot subfeed, a concrete append. -/
theorem C1_witness :
    (load_subfeed (mkSnapshotFeed "sha1://feedsnap" snapPayload) (.str "~abc") 0 "*local*").is_writeable = false
    ∧ append_messages okDaemon snapSubfeed [Json.num 5] =
        (.error "Cannot append messages to a readonly feed", snapSubfeed, []) :=
  ⟨C1_append_readonly_fails_before_network.2.2 "sha1://feedsnap" snapPayload (.str "~abc") 0 "*local*",
   C1_append_readonly_fails_before_network.1 okDaemon snapSubfeed [Json.num 5] rfl⟩

/-! ### C3: the snapshot branch of `get_next_messages` -/

/-- C3: on a snapshot subfeed at position `p`, `get_next_messages`
returns the slice of the snapshot's message list from `p` (capped at
`max_num_messages` when positive, unbounded when `0`), advances the
position by exactly the returned length when `advance_position` is set,
and issues no Transport Port request. -/
theorem C3_snapshot_fetch_slices_without_network :
    ∀ (d : Daemon) (sf : SubfeedM) (w : Nat) (sg : Bool) (maxn : Nat) (adv : Bool),
      sf.is_snapshot = true →
      get_next_messages d sf w sg maxn adv =
        (let messages := _get_snapshot_messages sf
         let ret := if maxn > 0 then (messages.drop sf.position).take maxn
                    else messages.drop sf.position
         (.ok ret,
          { sf with position := if adv then sf.position + ret.length else sf.position },
          [])) := by
  intro d sf w sg maxn adv h
  simp [get_next_messages, h]

/-- C3 witness: position 1, cap 2, over the three-message snapshot. -/
theorem C3_witness :
    get_next_messages okDaemon (set_position snapSubfeed 1) 10 false 2 true =
      (.ok [Json.num 2, Json.num 3], set_position snapSubfeed 3, []) := by
  rw [C3_snapshot_fetch_slices_without_network okDaemon (set_position snapSubfeed 1) 10 false 2 true rfl]
  rfl

/-! ### C10: the snapshot fetch is total in the cursor -/

/-- C10: on a snapshot subfeed whose position is at or past the end of
the snapshot's message list (e.g. set there by `set_position`),
`get_next_messages` returns the empty list with no error, leaves the
subfeed state (in particular the position) unchanged even when
`advance_position` is set, and issues no request. -/
theorem C10_snapshot_fetch_total_past_end :
    ∀ (d : Daemon) (sf : SubfeedM) (w : Nat) (sg : Bool) (maxn : Nat) (adv : Bool),
      sf.is_snapshot = true →
      (_get_snapshot_messages sf).length ≤ sf.position →
      get_next_messages d sf w sg maxn adv = (.ok [], sf, []) := by
  intro d sf w sg maxn adv h hlen
  simp [get_next_messages, h, List.drop_eq_nil_of_le hlen]

/-- C10 witness: position 7 over the three-message snapshot. -/
theorem C10_witness :
    get_next_messages okDaemon (set_position snapSubfeed 7) 10 false 0 true =
      (.ok [], set_position snapSubfeed 7, []) :=
  C10_snapshot_fetch_total_past_end okDaemon (set_position snapSubfeed 7) 10 false 0 true rfl
    (by decide)

/-! ### C8: a subfeed absent from the snapshot is an empty list, not an error -/

/-- C8: on a snapshot subfeed whose hash is absent from the payload's
`subfeeds` mapping, the snapshot lookup yields `[]` rather than an
error, `get_num_local_messages` reports `0`, and `get_next_messages`
returns the empty list with the state unchanged; neither operation
issues a request. -/
theorem C8_absent_snapshot_subfeed_is_empty :
    ∀ (d : Daemon) (sf : SubfeedM) (snap : Json) (w : Nat) (sg : Bool) (maxn : Nat) (adv : Bool),
      sf.is_snapshot = true →
      sf.feed.snapshot_object = some snap →
      (jlookup snap "subfeeds").bind (fun subs => jlookup subs sf.subfeed_hash) = none →
      _get_snapshot_messages sf = []
      ∧ get_num_local_messages d sf = (.ok (.num 0), [])
      ∧ get_next_messages d sf w sg maxn adv = (.ok [], sf, []) := by
  intro d sf snap w sg maxn adv hsnap hobj hmiss
  have hmsgs : _get_snapshot_messages sf = [] := by
    unfold _get_snapshot_messages
    rw [hobj]
    rcases hsubs : jlookup snap "subfeeds" with _ | subs
    · simp [hsubs]
    · rw [hsubs] at hmiss
      simp only [Option.some_bind] at hmiss
      simp [hsubs, hmiss]
  refine ⟨hmsgs, ?_, ?_⟩
  · simp [get_num_local_messages, hsnap, hmsgs]
  · simp [get_next_messages, hsnap, hmsgs]

/-- C8 witness: hash `"zzz"` is absent from the concrete payload. -/
theorem C8_witness :
    _get_snapshot_messages snapSubfeedMissing = []
    ∧ get_num_local_messages okDaemon snapSubfeedMissing = (.ok (.num 0), [])
    ∧ get_next_messages okDaemon snapSubfeedMissing 10 false 0 true =
        (.ok [], snapSubfeedMissing, []) :=
  C8_absent_snapshot_subfeed_is_empty okDaemon snapSubfeedMissing snapPayload 10 false 0 true
    rfl rfl rfl

/-! ### C2: cursor discipline -/

/-- Helper: `get_next_messages` either succeeds — and then the new state
is the old one with the position advanced by the returned count exactly
when `advance_position` is set (and on a snapshot the result is the
slice) — or fails leaving the state unchanged. -/
theorem gnm_result_state (d : Daemon) (sf : SubfeedM) (w : Nat) (sg : Bool) (maxn : Nat)
    (adv : Bool) :
    (∃ msgs, (get_next_messages d sf w sg maxn adv).1 = Except.ok msgs ∧
       (get_next_messages d sf w sg maxn adv).2.1 =
         { sf with position := if adv then sf.position + msgs.length else sf.position } ∧
       (sf.is_snapshot = true →
         msgs = (if maxn > 0 then ((_get_snapshot_messages sf).drop sf.position).take maxn
                 else (_get_snapshot_messages sf).drop sf.position)))
    ∨ (∃ e, (get_next_messages d sf w sg maxn adv).1 = Except.error e ∧
       (get_next_messages d sf w sg maxn adv).2.1 = sf) := by
  by_cases hsnap : sf.is_snapshot = true
  · left
    refine ⟨_, ?_, ?_, fun _ => rfl⟩ <;> simp [get_next_messages, hsnap]
  · rcases hw : _watch_for_new_messages d
        [("watch", ⟨sf.feed.feed_id, sf.subfeed_hash, sf.position⟩)] w sf.channel sg maxn
      with ⟨res, tr⟩
    rcases res with e | x
    · right
      exact ⟨e, by simp [get_next_messages, hsnap, hw], by simp [get_next_messages, hsnap, hw]⟩
    · rcases harr : (jlookup x "watch").getD (.arr []) with _ | b | n | s | y | o
      all_goals first
        | (left
           refine ⟨y, ?_, ?_, fun hc => absurd hc hsnap⟩ <;>
             simp [get_next_messages, hsnap, hw, harr])
        | (right
           refine ⟨"TypeError: len", ?_, ?_⟩ <;> simp [get_next_messages, hsnap, hw, harr])

/-- Helper: a successful `iter_load_messages` keeps the parent subfeed
and the relative position unchanged (it fetches with
`advance_position=False`) and appends the fetched messages — on a
snapshot, exactly the remainder of the snapshot list — to the buffer. -/
theorem iter_load_ok_spec (d : Daemon) (sg : Bool) (s s2 : IterState) (tr : List NetRequest)
    (h : iter_load_messages d sg s = (Except.ok s2, tr)) :
    s2.parent = s.parent ∧ s2.relative_position = s.relative_position ∧
    ∃ msgs, s2.messages = s.messages ++ msgs ∧
      (s.parent.is_snapshot = true →
        msgs = (_get_snapshot_messages s.parent).drop s.parent.position) := by
  unfold iter_load_messages at h
  rcases hg : get_next_messages d s.parent 5000 sg 0 false with ⟨res, parent2, tr2⟩
  rcases res with e | msgs
  · rw [hg] at h; simp at h
  · rw [hg] at h
    simp only [] at h
    have hspec := gnm_result_state d s.parent 5000 sg 0 false
    rw [hg] at hspec
    rcases hspec with ⟨msgs0, hok0, hst, hsnapc⟩ | ⟨e, herr, -⟩
    · simp only [] at hok0 hst
      have hmm : msgs = msgs0 := by injection hok0
      subst hmm
      injection h with h1 h2
      injection h1 with h1
      subst h1
      have hparent : parent2 = s.parent := by rw [hst]; rfl
      refine ⟨hparent, rfl, msgs, rfl, fun hsn => ?_⟩
      simpa using hsnapc hsn
    · simp at herr

/-- Helper: on a snapshot parent, a buffer reload appends exactly the
remainder of the snapshot list and issues no request. -/
theorem iter_load_snapshot (d : Daemon) (sg : Bool) (s : IterState)
    (hsnap : s.parent.is_snapshot = true) :
    iter_load_messages d sg s =
      (Except.ok { s with messages :=
          s.messages ++ (_get_snapshot_messages s.parent).drop s.parent.position }, []) := by
  simp [iter_load_messages, get_next_messages, hsnap]

/-- Helper: a yielded element advances the parent position by one. -/
theorem streamNext_yield_advances (d : Daemon) (sg : Bool) (s : IterState) (m : Json)
    (s' : IterState) (h : streamNext d sg s = .yield m s') :
    s'.parent.position = s.parent.position + 1 := by
  unfold streamNext at h
  by_cases hlt : s.relative_position < s.messages.length
  · rw [if_pos hlt] at h
    unfold iterYield at h
    injection h with h1 h2
    subst h2
    rfl
  · rw [if_neg hlt] at h
    rcases hload : iter_load_messages d sg s with ⟨res, tr⟩
    rcases res with e | s2
    · rw [hload] at h; simp at h
    · rw [hload] at h
      simp only [] at h
      have hspec := iter_load_ok_spec d sg s s2 tr hload
      split at h
      · unfold iterYield at h
        injection h with h1 h2
        subst h2
        simp [hspec.1]
      · split at h <;> simp at h

/-- Helper: a retry pass leaves the parent position unchanged. -/
theorem streamNext_retry_keeps_position (d : Daemon) (sg : Bool) (s : IterState)
    (s' : IterState) (h : streamNext d sg s = .retry s') :
    s'.parent.position = s.parent.position := by
  unfold streamNext at h
  by_cases hlt : s.relative_position < s.messages.length
  · rw [if_pos hlt] at h; unfold iterYield at h; simp at h
  · rw [if_neg hlt] at h
    rcases hload : iter_load_messages d sg s with ⟨res, tr⟩
    rcases res with e | s2
    · rw [hload] at h; simp at h
    · rw [hload] at h
      simp only [] at h
      have hspec := iter_load_ok_spec d sg s s2 tr hload
      split at h
      · unfold iterYield at h; simp at h
      · split at h
        · simp at h
        · obtain rfl : s2 = s' := by injection h
          rw [hspec.1]

/-- C2 counterexample: the position cursor is not monotone over every
operation sequence — `set_position` writes it verbatim, so setting 5 then
2 strictly decreases it. -/
theorem C2_counterexample :
    (set_position (set_position snapSubfeed 5) 2).position <
      (set_position snapSubfeed 5).position := by decide

/-- C2 amended: excluding `set_position` (which writes the cursor
verbatim and may decrease it or place it past the end), the cursor is
non-decreasing under `get_next_messages`, advances by exactly the
returned count when `advance_position` is set (and stays put otherwise
or on error), never exceeds the snapshot length on a snapshot subfeed
whose cursor starts within it, and under the stream iterator advances by
exactly one per yielded element (a retry pass leaves it unchanged). -/
theorem C2_amended_cursor_discipline :
    (∀ (d : Daemon) (sf : SubfeedM) (w : Nat) (sg : Bool) (maxn : Nat) (adv : Bool),
        sf.position ≤ (get_next_messages d sf w sg maxn adv).2.1.position)
    ∧ (∀ (d : Daemon) (sf : SubfeedM) (w : Nat) (sg : Bool) (maxn : Nat) (adv : Bool)
        (msgs : List Json), (get_next_messages d sf w sg maxn adv).1 = Except.ok msgs →
        (get_next_messages d sf w sg maxn adv).2.1.position =
          if adv then sf.position + msgs.length else sf.position)
    ∧ (∀ (d : Daemon) (sf : SubfeedM) (w : Nat) (sg : Bool) (maxn : Nat) (adv : Bool)
        (e : String), (get_next_messages d sf w sg maxn adv).1 = Except.error e →
        (get_next_messages d sf w sg maxn adv).2.1.position = sf.position)
    ∧ (∀ (d : Daemon) (sf : SubfeedM) (w : Nat) (sg : Bool) (maxn : Nat) (adv : Bool),
        sf.is_snapshot = true → sf.position ≤ (_get_snapshot_messages sf).length →
        (get_next_messages d sf w sg maxn adv).2.1.position ≤
          (_get_snapshot_messages sf).length)
    ∧ (∀ (d : Daemon) (sg : Bool) (s : IterState) (m : Json) (s' : IterState),
        streamNext d sg s = .yield m s' → s'.parent.position = s.parent.position + 1)
    ∧ (∀ (d : Daemon) (sg : Bool) (s : IterState) (s' : IterState),
        streamNext d sg s = .retry s' → s'.parent.position = s.parent.position) := by
  have hpos : ∀ (d : Daemon) (sf : SubfeedM) (w : Nat) (sg : Bool) (maxn : Nat) (adv : Bool)
      (msgs : List Json), (get_next_messages d sf w sg maxn adv).1 = Except.ok msgs →
      (get_next_messages d sf w sg maxn adv).2.1.position =
        if adv then sf.position + msgs.length else sf.position := by
    intro d sf w sg maxn adv msgs hok
    rcases gnm_result_state d sf w sg maxn adv with ⟨msgs0, hok0, hst, _⟩ | ⟨e, herr, _⟩
    · rw [hok0] at hok
      obtain rfl : msgs0 = msgs := by injection hok
      rw [hst]
    · rw [herr] at hok; exact absurd hok (by simp)
  have herrpos : ∀ (d : Daemon) (sf : SubfeedM) (w : Nat) (sg : Bool) (maxn : Nat) (adv : Bool)
      (e : String), (get_next_messages d sf w sg maxn adv).1 = Except.error e →
      (get_next_messages d sf w sg maxn adv).2.1.position = sf.position := by
    intro d sf w sg maxn adv e herr'
    rcases gnm_result_state d sf w sg maxn adv with ⟨msgs0, hok0, _, _⟩ | ⟨e0, herr, hst⟩
    · rw [hok0] at herr'; exact absurd herr' (by simp)
    · rw [hst]
  refine ⟨?_, hpos, herrpos, ?_, ?_, ?_⟩
  · intro d sf w sg maxn adv
    rcases gnm_result_state d sf w sg maxn adv with ⟨msgs0, _, hst, _⟩ | ⟨e, _, hst⟩
    · rw [hst]; dsimp only; split <;> omega
    · simp [hst]
  · intro d sf w sg maxn adv hsnap hle
    rcases gnm_result_state d sf w sg maxn adv with ⟨msgs0, _, hst, hmsgs⟩ | ⟨e, _, hst⟩
    · have hm := hmsgs hsnap
      rw [hst]
      dsimp only
      subst hm
      split
      · split <;> simp [List.length_take, List.length_drop] <;> omega
      · exact hle
    · rw [hst]; exact hle
  · exact fun d sg s m s' h => streamNext_yield_advances d sg s m s' h
  · exact fun d sg s s' h => streamNext_retry_keeps_position d sg s s' h

/-- C2 witness: a concrete snapshot fetch (exact advance and bound) and a
concrete yielded stream element. -/
theorem C2_witness :
    (get_next_messages okDaemon (set_position snapSubfeed 1) 10 false 2 true).2.1.position =
      (if true then (set_position snapSubfeed 1).position + [Json.num 2, Json.num 3].length
       else (set_position snapSubfeed 1).position)
    ∧ (get_next_messages okDaemon (set_position snapSubfeed 1) 10 false 2 true).2.1.position ≤
        (_get_snapshot_messages (set_position snapSubfeed 1)).length
    ∧ ({ parent := set_position snapSubfeed 1, messages := [Json.num 1],
         relative_position := 1 } : IterState).parent.position =
        snapIterMid.parent.position + 1 :=
  ⟨C2_amended_cursor_discipline.2.1 okDaemon (set_position snapSubfeed 1) 10 false 2 true
     [Json.num 2, Json.num 3] rfl,
   C2_amended_cursor_discipline.2.2.2.1 okDaemon (set_position snapSubfeed 1) 10 false 2 true
     rfl (by decide),
   C2_amended_cursor_discipline.2.2.2.2.1 okDaemon false snapIterMid (Json.num 1)
     { parent := set_position snapSubfeed 1, messages := [Json.num 1], relative_position := 1 }
     rfl⟩

/-! ### C4: stream termination -/

/-- C4: one pass of the stream iterator never raises `StopIteration` over
a live feed (an empty poll sleeps and retries); over a snapshot it never
retries (and never errors) and stops exactly when the buffer and the
snapshot remainder are exhausted; and every yielded element advances the
parent subfeed's position by exactly one. -/
theorem C4_stream_stops_iff_snapshot_exhausted :
    (∀ (d : Daemon) (sg : Bool) (s : IterState), s.parent.is_snapshot = false →
        streamNext d sg s ≠ .stop)
    ∧ (∀ (d : Daemon) (sg : Bool) (s : IterState), s.parent.is_snapshot = true →
        (∀ s', streamNext d sg s ≠ .retry s') ∧ (∀ e, streamNext d sg s ≠ .err e) ∧
        (streamNext d sg s = .stop ↔
          s.messages.length + ((_get_snapshot_messages s.parent).length - s.parent.position)
            ≤ s.relative_position))
    ∧ (∀ (d : Daemon) (sg : Bool) (s : IterState) (m : Json) (s' : IterState),
        streamNext d sg s = .yield m s' → s'.parent.position = s.parent.position + 1) := by
  refine ⟨?_, ?_, fun d sg s m s' h => streamNext_yield_advances d sg s m s' h⟩
  · intro d sg s hlive heq
    unfold streamNext at heq
    by_cases hlt : s.relative_position < s.messages.length
    · rw [if_pos hlt] at heq; simp [iterYield] at heq
    · rw [if_neg hlt] at heq
      rcases hload : iter_load_messages d sg s with ⟨res, tr⟩
      rcases res with e | s2
      · rw [hload] at heq; simp at heq
      · rw [hload] at heq
        simp only [] at heq
        have hspec := iter_load_ok_spec d sg s s2 tr hload
        split at heq
        · simp [iterYield] at heq
        · split at heq
          · rename_i hsnap2
            rw [hspec.1, hlive] at hsnap2
            exact absurd hsnap2 (by simp)
          · simp at heq
  · intro d sg s hsnap
    have hload := iter_load_snapshot d sg s hsnap
    have hstream : streamNext d sg s =
        (if s.relative_position < s.messages.length then iterYield s
         else if s.relative_position <
             (s.messages ++ (_get_snapshot_messages s.parent).drop s.parent.position).length then
           iterYield { s with messages :=
             s.messages ++ (_get_snapshot_messages s.parent).drop s.parent.position }
         else .stop) := by
      simp [streamNext, hload, hsnap]
    refine ⟨fun s' heq => ?_, fun e heq => ?_, ?_⟩
    · rw [hstream] at heq
      split at heq
      · simp [iterYield] at heq
      · split at heq
        · simp [iterYield] at heq
        · simp at heq
    · rw [hstream] at heq
      split at heq
      · simp [iterYield] at heq
      · split at heq
        · simp [iterYield] at heq
        · simp at heq
    · rw [hstream]
      by_cases h1 : s.relative_position < s.messages.length
      · rw [if_pos h1]
        constructor
        · intro h; simp [iterYield] at h
        · intro h; exfalso; omega
      · rw [if_neg h1]
        by_cases h2 : s.relative_position <
            (s.messages ++ (_get_snapshot_messages s.parent).drop s.parent.position).length
        · rw [if_pos h2]
          constructor
          · intro h; simp [iterYield] at h
          · intro h
            exfalso
            rw [List.length_append, List.length_drop] at h2
            omega
        · rw [if_neg h2]
          constructor
          · intro _
            rw [List.length_append, List.length_drop] at h2
            omega
          · intro _; rfl

/-- C4 witness: the live empty-buffer state does not stop; the exhausted
snapshot state stops; the one-message snapshot state yields with the
position advanced by one. -/
theorem C4_witness :
    streamNext okDaemon false liveIter ≠ .stop
    ∧ streamNext okDaemon false snapIterEnd = .stop
    ∧ ({ parent := set_position snapSubfeed 1, messages := [Json.num 1],
         relative_position := 1 } : IterState).parent.position =
        snapIterMid.parent.position + 1 :=
  ⟨C4_stream_stops_iff_snapshot_exhausted.1 okDaemon false liveIter rfl,
   ((C4_stream_stops_iff_snapshot_exhausted.2.1 okDaemon false snapIterEnd rfl).2.2).mpr
     (by decide),
   C4_stream_stops_iff_snapshot_exhausted.2.2 okDaemon false snapIterMid (Json.num 1)
     { parent := set_position snapSubfeed 1, messages := [Json.num 1], relative_position := 1 }
     rfl⟩

/-! ### C5: `deriveSubfeedHash` -/

/-- Strict ordering of serialized object entries by key. -/
def keyLT (a b : String × String) : Prop := a.1 < b.1

instance : IsAntisymm (String × String) keyLT :=
  ⟨fun _ _ h1 h2 => ((lt_asymm h1) h2).elim⟩

/-- Helper: `dumpsPairs` is an entry-wise map. -/
theorem dumpsPairs_eq_map (l : List (String × Json)) :
    dumpsPairs l = l.map (fun p => (p.1, dumps p.2)) := by
  induction l with
  | nil => rfl
  | cons p rest ih => cases p; simp [dumpsPairs, ih]

/-- Helper: sorting by key sends key-permuted, key-duplicate-free lists to
the same list. -/
theorem insertionSort_key_perm_eq (l1 l2 : List (String × String))
    (hperm : l1.Perm l2) (hnodup : (l1.map Prod.fst).Nodup) :
    List.insertionSort keyLE l1 = List.insertionSort keyLE l2 := by
  have hp1 := List.perm_insertionSort keyLE l1
  have hp2 := List.perm_insertionSort keyLE l2
  have hchain : (List.insertionSort keyLE l1).Perm (List.insertionSort keyLE l2) :=
    hp1.trans (hperm.trans hp2.symm)
  have hn1 : ((List.insertionSort keyLE l1).map Prod.fst).Nodup :=
    ((hp1.map Prod.fst).nodup_iff).mpr hnodup
  have hn2 : ((List.insertionSort keyLE l2).map Prod.fst).Nodup :=
    ((hp2.map Prod.fst).nodup_iff).mpr (((hperm.map Prod.fst).nodup_iff).mp hnodup)
  have hstrict : ∀ (l : List (String × String)),
      List.Sorted keyLE l → (l.map Prod.fst).Nodup → List.Sorted keyLT l := by
    intro l hs hn
    have hne : List.Pairwise (fun a b : String × String => a.1 ≠ b.1) l :=
      List.pairwise_map.mp hn
    exact (hs.and hne).imp (fun h => lt_of_le_of_ne h.1 h.2)
  exact List.eq_of_perm_of_sorted hchain
    (hstrict _ (List.sorted_insertionSort keyLE l1) hn1)
    (hstrict _ (List.sorted_insertionSort keyLE l2) hn2)

/-- Helper: the canonical serialization of an object is invariant under
permutation of its (duplicate-free) keys. -/
theorem dumps_obj_perm (l1 l2 : List (String × Json)) (hperm : l1.Perm l2)
    (hnodup : (l1.map Prod.fst).Nodup) : dumps (Json.obj l1) = dumps (Json.obj l2) := by
  have hsort : List.insertionSort keyLE (dumpsPairs l1) =
      List.insertionSort keyLE (dumpsPairs l2) := by
    apply insertionSort_key_perm_eq
    · rw [dumpsPairs_eq_map, dumpsPairs_eq_map]
      exact hperm.map _
    · rw [dumpsPairs_eq_map, List.map_map]
      simpa [Function.comp] using hnodup
  simp [dumps, hsort]

/-- C5: `_subfeed_hash` strips a leading `~` verbatim (so the hash of
`"~" ++ h` is `h`), hashes any other string through SHA-1 of its UTF-8
encoding, and hashes a structured name through SHA-1 of its canonical
JSON, so equal canonical JSON — in particular any key permutation of a
duplicate-free object — gives equal hashes.  The function is pure by
construction: it does not take the `Daemon` oracle, so no Transport Port
request can be issued while computing it. -/
theorem C5_subfeed_hash_derivation :
    (∀ h : String, _subfeed_hash (.str ("~" ++ h)) = h)
    ∧ (∀ s : String, pyStartsWith s "~" = false →
        _subfeed_hash (.str s) = _sha1_of_string s)
    ∧ (∀ j1 j2 : Json, dumps j1 = dumps j2 →
        _subfeed_hash (.obj j1) = _subfeed_hash (.obj j2))
    ∧ (∀ l1 l2 : List (String × Json), l1.Perm l2 → (l1.map Prod.fst).Nodup →
        _subfeed_hash (.obj (Json.obj l1)) = _subfeed_hash (.obj (Json.obj l2))) := by
  refine ⟨?_, ?_, ?_, ?_⟩
  · intro h
    have hdata : ("~" ++ h).data = '~' :: h.data := by rw [String.data_append]; rfl
    simp [_subfeed_hash, pyStartsWith, pyDrop, hdata, List.isPrefixOf]
  · intro s hs
    simp [_subfeed_hash, hs]
  · intro j1 j2 hdump
    simp [_subfeed_hash, _sha1_of_object, hdump]
  · intro l1 l2 hperm hnodup
    simp [_subfeed_hash, _sha1_of_object, dumps_obj_perm l1 l2 hperm hnodup]

/-- C5 witness: concrete instances of all four parts. -/
theorem C5_witness :
    _subfeed_hash (.str ("~" ++ "abc")) = "abc"
    ∧ _subfeed_hash (.str "events") = _sha1_of_string "events"
    ∧ _subfeed_hash (.obj Json.null) = _subfeed_hash (.obj Json.null)
    ∧ _subfeed_hash (.obj (Json.obj [("b", Json.bool true), ("a", Json.null)])) =
        _subfeed_hash (.obj (Json.obj [("a", Json.null), ("b", Json.bool true)])) :=
  ⟨C5_subfeed_hash_derivation.1 "abc",
   C5_subfeed_hash_derivation.2.1 "events" (by decide),
   C5_subfeed_hash_derivation.2.2.1 Json.null Json.null rfl,
   C5_subfeed_hash_derivation.2.2.2 _ _ (List.Perm.swap _ _ _) (by decide)⟩

/-! ### String-splitting helper lemmas (for C6, C7, C9) -/

/-- Helper: `split` always returns at least one piece. -/
theorem splitChar_ne_nil (sep : Char) (l : List Char) : splitChar sep l ≠ [] := by
  induction l with
  | nil => simp [splitChar]
  | cons c rest ih =>
    simp only [splitChar]
    split
    · simp
    · split <;> simp

/-- Helper: a separator-free string splits into itself alone. -/
theorem splitChar_no_sep (sep : Char) (l : List Char) (h : ∀ c ∈ l, c ≠ sep) :
    splitChar sep l = [l] := by
  induction l with
  | nil => rfl
  | cons c rest ih =>
    have hc : c ≠ sep := h c (by simp)
    have hrest := ih (fun x hx => h x (by simp [hx]))
    simp [splitChar, hc, hrest]

/-- Helper: splitting peels a separator-free prefix before a separator. -/
theorem splitChar_append_sep (sep : Char) (A B : List Char) (h : ∀ c ∈ A, c ≠ sep) :
    splitChar sep (A ++ sep :: B) = A :: splitChar sep B := by
  induction A with
  | nil => simp [splitChar]
  | cons c rest ih =>
    have hc : c ≠ sep := h c (by simp)
    have hrest := ih (fun x hx => h x (by simp [hx]))
    simp [splitChar, hc, hrest]

/-- Helper: `join` is a left inverse of `split`. -/
theorem intercalate_splitChar (sep : Char) (l : List Char) :
    intercalateChar sep (splitChar sep l) = l := by
  induction l with
  | nil => rfl
  | cons c rest ih =>
    by_cases hc : c = sep
    · subst hc
      rcases hg : splitChar c rest with _ | ⟨g, gs⟩
      · exact absurd hg (splitChar_ne_nil c rest)
      · rw [hg] at ih
        simp only [splitChar, if_pos rfl, hg]
        simp [intercalateChar, ih]
    · rcases hg : splitChar sep rest with _ | ⟨g, gs⟩
      · exact absurd hg (splitChar_ne_nil sep rest)
      · rw [hg] at ih
        simp only [splitChar, if_neg hc, hg]
        cases gs with
        | nil =>
          simp only [intercalateChar] at ih ⊢
          rw [ih]
        | cons g2 gs2 =>
          simp only [intercalateChar] at ih ⊢
          simp [ih]

/-! ### Percent-encoding round-trip lemmas (for C6, C9) -/

/-- Helper: the hypotheses a `Char`'s code point satisfies. -/
theorem char_toNat_valid (c : Char) :
    c.toNat < 55296 ∨ (57343 < c.toNat ∧ c.toNat < 1114112) := c.valid

/-- Helper: UTF-8 encoding produces bytes. -/
theorem utf8EncodeNat_lt_256 (n : Nat) (hn : n < 1114112) :
    ∀ b ∈ utf8EncodeNat n, b < 256 := by
  intro b hb
  unfold utf8EncodeNat at hb
  split at hb
  · simp at hb; omega
  · split at hb
    · simp at hb; rcases hb with rfl | rfl <;> omega
    · split at hb
      · simp at hb; rcases hb with rfl | rfl | rfl <;> omega
      · simp at hb; rcases hb with rfl | rfl | rfl | rfl <;> omega

/-- Helper: hex digits of a byte lex back to the byte. -/
theorem hexRound : ∀ b, b < 256 →
    (isHexDigit (hexU (b / 16)) && isHexDigit (hexU (b % 16))) = true ∧
    hexVal (hexU (b / 16)) * 16 + hexVal (hexU (b % 16)) = b := by decide

/-- Helper: uppercase hex digits are hex digits. -/
theorem hexU_isHexDigit : ∀ n, n < 16 → isHexDigit (hexU n) = true := by decide

/-- Helper: characters of a percent-escape expansion are `%` or hex
digits. -/
theorem mem_pct_expand (x : Char) (bs : List Nat) (hbs : ∀ b ∈ bs, b < 256)
    (hx : x ∈ bs.foldr (fun b acc => '%' :: hexU (b / 16) :: hexU (b % 16) :: acc) []) :
    x = '%' ∨ isHexDigit x = true := by
  induction bs with
  | nil => simp at hx
  | cons b bs2 ih =>
    simp only [List.foldr_cons, List.mem_cons] at hx
    rcases hx with rfl | rfl | rfl | hx
    · exact Or.inl rfl
    · exact Or.inr (hexU_isHexDigit _ (by have := hbs b (by simp); omega))
    · exact Or.inr (hexU_isHexDigit _ (by omega))
    · exact ih (fun y hy => hbs y (by simp [hy])) hx

/-- Helper: the bytes of a character's UTF-8 encoding are bytes. -/
theorem utf8EncodeChar_lt_256 (c : Char) : ∀ b ∈ utf8EncodeChar c, b < 256 := by
  intro b hb
  refine utf8EncodeNat_lt_256 c.toNat ?_ b hb
  rcases char_toNat_valid c with h | ⟨-, h⟩ <;> omega

/-- Helper: characters emitted by `quoteChar` are the safe character
itself, `%`, or a hex digit. -/
theorem mem_quoteChar (x c : Char) (hx : x ∈ quoteChar c) :
    (quoteSafe x = true ∧ x = c) ∨ x = '%' ∨ isHexDigit x = true := by
  unfold quoteChar at hx
  split at hx
  · rename_i hsafe
    simp at hx
    subst hx
    exact Or.inl ⟨hsafe, rfl⟩
  · exact Or.inr (mem_pct_expand x _ (utf8EncodeChar_lt_256 c) hx)

/-- Helper: folding the decoder over an encoded code point appends that
code point to the output and returns to the between-characters state. -/
theorem utf8Step_encodeNat (n : Nat) (out : List Char)
    (hval : n < 55296 ∨ (57343 < n ∧ n < 1114112)) :
    (utf8EncodeNat n).foldl utf8Step (none, out) = (none, out ++ [Char.ofNat n]) := by
  by_cases h1 : n < 128
  · have henc : utf8EncodeNat n = [n] := by rw [utf8EncodeNat, if_pos h1]
    rw [henc]
    simp [utf8Step, h1]
  · by_cases h2 : n < 2048
    · have henc : utf8EncodeNat n = [192 + n / 64, 128 + n % 64] := by
        rw [utf8EncodeNat, if_neg h1, if_pos h2]
      rw [henc]
      have hb0a : ¬ (192 + n / 64 < 128) := by omega
      have hb0b : ¬ (192 + n / 64 < 194) := by omega
      have hb0c : 192 + n / 64 < 224 := by omega
      have hb1 : 128 ≤ 128 + n % 64 ∧ 128 + n % 64 < 192 := by omega
      have hrecomp : (192 + n / 64 - 192) * 64 + (128 + n % 64 - 128) = n := by omega
      have hguard : ¬ (n < 128 ∨ (55296 ≤ n ∧ n < 57344) ∨ 1114112 ≤ n) := by omega
      simp only [List.foldl_cons, List.foldl_nil, utf8Step]
      rw [if_neg hb0a, if_neg hb0b, if_pos hb0c]
      simp only [utf8Step]
      rw [if_pos hb1, if_pos trivial, hrecomp]
      rw [if_neg hguard]
    · by_cases h3 : n < 65536
      · have henc : utf8EncodeNat n = [224 + n / 4096, 128 + n / 64 % 64, 128 + n % 64] := by
          rw [utf8EncodeNat, if_neg h1, if_neg h2, if_pos h3]
        rw [henc]
        have hb0a : ¬ (224 + n / 4096 < 128) := by omega
        have hb0b : ¬ (224 + n / 4096 < 194) := by omega
        have hb0c : ¬ (224 + n / 4096 < 224) := by omega
        have hb0d : 224 + n / 4096 < 240 := by omega
        have hb1 : 128 ≤ 128 + n / 64 % 64 ∧ 128 + n / 64 % 64 < 192 := by omega
        have hb2 : 128 ≤ 128 + n % 64 ∧ 128 + n % 64 < 192 := by omega
        have hacc : (224 + n / 4096 - 224) * 64 + (128 + n / 64 % 64 - 128) = n / 64 := by omega
        have hrecomp : n / 64 * 64 + (128 + n % 64 - 128) = n := by omega
        have hguard : ¬ (n < 2048 ∨ (55296 ≤ n ∧ n < 57344) ∨ 1114112 ≤ n) := by omega
        simp only [List.foldl_cons, List.foldl_nil, utf8Step]
        rw [if_neg hb0a, if_neg hb0b, if_neg hb0c, if_pos hb0d]
        simp only [utf8Step]
        rw [if_pos hb1, if_neg (by omega : ¬ (2 : Nat) = 1), hacc]
        simp only [utf8Step]
        rw [if_pos hb2, if_pos trivial, hrecomp]
        rw [if_neg hguard]
      · have henc : utf8EncodeNat n =
            [240 + n / 262144, 128 + n / 4096 % 64, 128 + n / 64 % 64, 128 + n % 64] := by
          rw [utf8EncodeNat, if_neg h1, if_neg h2, if_neg h3]
        rw [henc]
        have hb0a : ¬ (240 + n / 262144 < 128) := by omega
        have hb0b : ¬ (240 + n / 262144 < 194) := by omega
        have hb0c : ¬ (240 + n / 262144 < 224) := by omega
        have hb0d : ¬ (240 + n / 262144 < 240) := by omega
        have hb0e : 240 + n / 262144 < 245 := by omega
        have hb1 : 128 ≤ 128 + n / 4096 % 64 ∧ 128 + n / 4096 % 64 < 192 := by omega
        have hb2 : 128 ≤ 128 + n / 64 % 64 ∧ 128 + n / 64 % 64 < 192 := by omega
        have hb3 : 128 ≤ 128 + n % 64 ∧ 128 + n % 64 < 192 := by omega
        have hacc1 : (240 + n / 262144 - 240) * 64 + (128 + n / 4096 % 64 - 128) = n / 4096 := by
          omega
        have hacc2 : n / 4096 * 64 + (128 + n / 64 % 64 - 128) = n / 64 := by omega
        have hrecomp : n / 64 * 64 + (128 + n % 64 - 128) = n := by omega
        have hguard : ¬ (n < 65536 ∨ (55296 ≤ n ∧ n < 57344) ∨ 1114112 ≤ n) := by omega
        simp only [List.foldl_cons, List.foldl_nil, utf8Step]
        rw [if_neg hb0a, if_neg hb0b, if_neg hb0c, if_neg hb0d, if_pos hb0e]
        simp only [utf8Step]
        rw [if_pos hb1, if_neg (by omega : ¬ (3 : Nat) = 1), hacc1]
        simp only [utf8Step]
        rw [if_pos hb2, if_neg (by omega : ¬ (3 - 1 : Nat) = 1), hacc2]
        simp only [utf8Step]
        rw [if_pos hb3, if_pos trivial, hrecomp]
        rw [if_neg hguard]

/-- Helper: UTF-8 decoding inverts encoding. -/
theorem utf8Decode_encode (l : List Char) : utf8Decode (utf8Encode l) = l := by
  suffices h : ∀ out, (utf8Encode l).foldl utf8Step (none, out) = (none, out ++ l) by
    simp [utf8Decode, h []]
  induction l with
  | nil => intro out; simp [utf8Encode]
  | cons c rest ih =>
    intro out
    have henc : utf8Encode (c :: rest) = utf8EncodeChar c ++ utf8Encode rest := by
      simp [utf8Encode]
    rw [henc, List.foldl_append, utf8EncodeChar,
        utf8Step_encodeNat c.toNat out (char_toNat_valid c), Char.ofNat_toNat, ih (out ++ [c])]
    simp

/-- Helper: the tokenizer turns a percent-escape expansion back into its
bytes. -/
theorem pctLexStep_expand (bs : List Nat) (hbs : ∀ b ∈ bs, b < 256) (out : List PctUnit) :
    (bs.foldr (fun b acc => '%' :: hexU (b / 16) :: hexU (b % 16) :: acc) []).foldl
      pctLexStep (none, out) = (none, out ++ bs.map PctUnit.byte) := by
  induction bs generalizing out with
  | nil => simp
  | cons b bs2 ih =>
    have hb := hbs b (by simp)
    obtain ⟨hhex, hval2⟩ := hexRound b hb
    rw [Bool.and_eq_true] at hhex
    simp only [List.foldr_cons, List.foldl_cons]
    rw [show pctLexStep (none, out) '%' = (some none, out) from by simp [pctLexStep]]
    rw [show pctLexStep (some none, out) (hexU (b / 16)) = (some (some (hexU (b / 16))), out)
        from by simp [pctLexStep, hhex.1]]
    rw [show pctLexStep (some (some (hexU (b / 16))), out) (hexU (b % 16)) =
        (none, out ++ [PctUnit.byte b]) from by simp [pctLexStep, hhex.2, hval2]]
    rw [ih (fun y hy => hbs y (by simp [hy])) (out ++ [PctUnit.byte b])]
    simp

/-- Helper: tokenizing `quote`'s output yields, per character, either the
literal safe character or the bytes of its UTF-8 encoding. -/
theorem pctLexStep_quoteChars (l : List Char) : ∀ out,
    (quoteChars l).foldl pctLexStep (none, out) =
      (none, out ++ (l.map (fun c => if quoteSafe c then [PctUnit.lit c]
                                     else (utf8EncodeChar c).map PctUnit.byte)).flatten) := by
  induction l with
  | nil => intro out; simp [quoteChars]
  | cons c rest ih =>
    intro out
    have hq : quoteChars (c :: rest) = quoteChar c ++ quoteChars rest := by simp [quoteChars]
    rw [hq, List.foldl_append]
    by_cases hc : quoteSafe c
    · have hcp : c ≠ '%' := fun h => by subst h; exact absurd hc (by decide)
      rw [show quoteChar c = [c] from by rw [quoteChar, if_pos hc]]
      simp only [List.foldl_cons, List.foldl_nil]
      rw [show pctLexStep (none, out) c = (none, out ++ [PctUnit.lit c]) from by
        simp [pctLexStep, hcp]]
      rw [ih (out ++ [PctUnit.lit c])]
      simp [hc]
    · rw [show quoteChar c =
          (utf8EncodeChar c).foldr (fun b acc => '%' :: hexU (b / 16) :: hexU (b % 16) :: acc) []
          from by rw [quoteChar, if_neg hc]]
      rw [pctLexStep_expand _ (utf8EncodeChar_lt_256 c) out]
      rw [ih (out ++ (utf8EncodeChar c).map PctUnit.byte)]
      simp [hc]

/-- Helper: flushing a run of bytes accumulates them (reversed) into
`pending`. -/
theorem pctFlushAux_bytes (bs : List Nat) : ∀ (pending : List Nat) (us : List PctUnit),
    pctFlushAux pending (bs.map PctUnit.byte ++ us) = pctFlushAux (bs.reverse ++ pending) us := by
  induction bs with
  | nil => intro pending us; simp
  | cons b bs2 ih =>
    intro pending us
    simp only [List.map_cons, List.cons_append, pctFlushAux]
    rw [show (List.map PctUnit.byte bs2).append us = List.map PctUnit.byte bs2 ++ us from rfl,
        ih (b :: pending) us]
    simp

/-- Helper: unquoting the tokens of `quote`'s output, with a pending byte
run that encodes `p`, recovers `p` followed by the original text. -/
theorem pctFlush_lex_quote (l : List Char) : ∀ (p : List Char),
    pctFlushAux (utf8Encode p).reverse
      ((l.map (fun c => if quoteSafe c then [PctUnit.lit c]
                        else (utf8EncodeChar c).map PctUnit.byte)).flatten) = p ++ l := by
  induction l with
  | nil =>
    intro p
    simp [pctFlushAux, utf8Decode_encode]
  | cons c rest ih =>
    intro p
    by_cases hc : quoteSafe c
    · simp only [List.map_cons, List.flatten_cons, if_pos hc, List.singleton_append, pctFlushAux]
      rw [List.reverse_reverse, utf8Decode_encode]
      have h0 := ih []
      simp only [utf8Encode, List.map_nil, List.flatten_nil, List.reverse_nil,
        List.nil_append] at h0
      rw [h0]
    · simp only [List.map_cons, List.flatten_cons, if_neg hc]
      rw [pctFlushAux_bytes]
      have hstep : (utf8EncodeChar c).reverse ++ (utf8Encode p).reverse =
          (utf8Encode (p ++ [c])).reverse := by
        simp [utf8Encode]
      rw [hstep, ih (p ++ [c])]
      simp

/-- Helper: `unquote` inverts `quote`. -/
theorem unquoteChars_quoteChars (l : List Char) : unquoteChars (quoteChars l) = l := by
  have hlex : pctLex (quoteChars l) =
      (l.map (fun c => if quoteSafe c then [PctUnit.lit c]
                       else (utf8EncodeChar c).map PctUnit.byte)).flatten := by
    rw [pctLex, pctLexStep_quoteChars l []]
    simp
  rw [unquoteChars, hlex]
  have := pctFlush_lex_quote l []
  simpa [utf8Encode] using this

/-- Helper: `unquote` inverts `quote` on strings. -/
theorem pyUnquote_pyQuote (s : String) : pyUnquote (pyQuote s) = s := by
  rw [pyUnquote, pyQuote]
  show String.mk (unquoteChars (quoteChars s.data)) = s
  rw [unquoteChars_quoteChars]

/-- Helper: UTF-8 encodings are nonempty. -/
theorem utf8EncodeNat_ne_nil (n : Nat) : utf8EncodeNat n ≠ [] := by
  unfold utf8EncodeNat
  split
  · simp
  · split
    · simp
    · split <;> simp

/-- Helper: `quote` emits at least one character per character. -/
theorem quoteChar_ne_nil (c : Char) : quoteChar c ≠ [] := by
  unfold quoteChar
  split
  · simp
  · rcases hx : utf8EncodeChar c with _ | ⟨b, bs⟩
    · exact absurd hx (by rw [utf8EncodeChar]; exact utf8EncodeNat_ne_nil c.toNat)
    · simp

/-- Helper: `quote` output is nonempty on nonempty input. -/
theorem quoteChars_cons_ne_nil (c : Char) (rest : List Char) : quoteChars (c :: rest) ≠ [] := by
  have h := quoteChar_ne_nil c
  simp only [quoteChars, List.map_cons, List.flatten_cons]
  intro hx
  rcases List.append_eq_nil.mp hx with ⟨h1, -⟩
  exact h h1

/-- Helper: `quote` never emits a question mark. -/
theorem quoteChars_no_qmark (l : List Char) : '?' ∉ quoteChars l := by
  intro hmem
  rw [quoteChars, List.mem_flatten] at hmem
  obtain ⟨lc, hlc, hin⟩ := hmem
  rw [List.mem_map] at hlc
  obtain ⟨c, -, rfl⟩ := hlc
  rcases mem_quoteChar '?' c hin with ⟨hsafe, -⟩ | h | h
  · exact absurd hsafe (by decide)
  · exact absurd h (by decide)
  · exact absurd h (by decide)

/-- Helper: parsing a live subfeed URI assembled from a slash-free,
question-mark-free feed id and a quoted nonempty name recovers both. -/
theorem parse_feed_uri_quoted (fid name : String)
    (hfs : '/' ∉ fid.data) (hfq : '?' ∉ fid.data) (hname : name ≠ "") :
    _parse_feed_uri ("feed://" ++ fid ++ "/" ++ pyQuote name) = some (fid, some name, 0) := by
  have hdata : ("feed://" ++ fid ++ "/" ++ pyQuote name).data =
      "feed:".data ++ '/' :: ('/' :: (fid.data ++ '/' :: quoteChars name.data)) := by
    simp [String.data_append, pyQuote]
  have hnoq : '?' ∉ ("feed://" ++ fid ++ "/" ++ pyQuote name).data := by
    rw [hdata]
    intro hmem
    simp only [List.mem_append, List.mem_cons] at hmem
    simp at hmem
    rcases hmem with h | h
    · exact hfq h
    · exact quoteChars_no_qmark _ h
  have hfid' : ∀ c ∈ fid.data, c ≠ '/' := fun c hc heq => hfs (heq ▸ hc)
  have hsplitq : splitChar '?' ("feed://" ++ fid ++ "/" ++ pyQuote name).data =
      [("feed://" ++ fid ++ "/" ++ pyQuote name).data] :=
    splitChar_no_sep _ _ (fun c hc heq => hnoq (heq ▸ hc))
  have hsplit : splitChar '/' ("feed://" ++ fid ++ "/" ++ pyQuote name).data =
      "feed:".data :: [] :: fid.data :: splitChar '/' (quoteChars name.data) := by
    rw [hdata]
    rw [splitChar_append_sep '/' "feed:".data _ (by decide)]
    congr 1
    rw [show splitChar '/' ('/' :: (fid.data ++ '/' :: quoteChars name.data)) =
        [] :: splitChar '/' (fid.data ++ '/' :: quoteChars name.data) from by simp [splitChar]]
    congr 1
    exact splitChar_append_sep '/' fid.data _ hfid'
  have hnd : name.data ≠ [] := fun h => hname (by
    rw [show name = String.mk name.data from rfl, h])
  have hQne : quoteChars name.data ≠ [] := by
    rcases hnd2 : name.data with _ | ⟨c0, rest0⟩
    · exact absurd hnd2 hnd
    · exact quoteChars_cons_ne_nil c0 rest0
  have hQempty : (quoteChars name.data).isEmpty = false := by
    rcases hx : quoteChars name.data with _ | _
    · exact absurd hx hQne
    · rfl
  simp only [_parse_feed_uri]
  rw [hsplitq]
  simp only [List.headD_cons]
  rw [hsplit]
  rw [if_pos (by simp only [List.length_cons]; omega)]
  simp only [List.headD_cons]
  rw [if_pos (show stripColons "feed:".data = "feed".data from by decide)]
  simp [intercalate_splitChar, hQempty, unquoteChars_quoteChars]

/-- Helper: parsing a bare live-feed URI with a slash-free,
question-mark-free id yields the id and no subfeed name. -/
theorem parse_feed_uri_bare (fid : String) (hfs : '/' ∉ fid.data) (hfq : '?' ∉ fid.data) :
    _parse_feed_uri ("feed://" ++ fid) = some (fid, none, 0) := by
  have hdata : ("feed://" ++ fid).data = "feed:".data ++ '/' :: ('/' :: fid.data) := by
    simp [String.data_append]
  have hnoq : '?' ∉ ("feed://" ++ fid).data := by
    rw [hdata]
    intro hmem
    simp only [List.mem_append, List.mem_cons] at hmem
    simp at hmem
    exact hfq hmem
  have hsplitq : splitChar '?' ("feed://" ++ fid).data = [("feed://" ++ fid).data] :=
    splitChar_no_sep _ _ (fun c hc heq => hnoq (heq ▸ hc))
  have hsplit : splitChar '/' ("feed://" ++ fid).data =
      "feed:".data :: [] :: [fid.data] := by
    rw [hdata]
    rw [splitChar_append_sep '/' "feed:".data _ (by decide)]
    congr 1
    rw [show splitChar '/' ('/' :: fid.data) = [] :: splitChar '/' fid.data from by
      simp [splitChar]]
    congr 1
    exact splitChar_no_sep '/' fid.data (fun c hc heq => hfs (heq ▸ hc))
  simp only [_parse_feed_uri]
  rw [hsplitq]
  simp only [List.headD_cons]
  rw [hsplit]
  rw [if_pos (by simp only [List.length_cons]; omega)]
  simp only [List.headD_cons]
  rw [if_pos (show stripColons "feed:".data = "feed".data from by decide)]
  simp [intercalateChar]

/-! ### C9: subfeed URI round trip -/

/-- C9 counterexample: the round trip does not hold for *every* feed id —
an id containing `/` (the uri property never encodes the id part) parses
back to a different id/name split.  With feed id `"a/b"` and name
`"n"`, the produced URI `feed://a/b/n` parses to id `"a"` and name
`"b/n"`. -/
theorem C9_counterexample :
    subfeed_uri (load_subfeed slashFeed (.str "n") 0 "*local*") = some "feed://a/b/n"
    ∧ _parse_feed_uri "feed://a/b/n" = some ("a", some "b/n", 0)
    ∧ ("a" : String) ≠ "a/b" :=
  ⟨by decide, by decide, by decide⟩

/-- C9 amended: for every feed id containing neither `/` nor `?`, and
every non-empty string subfeed name (slashes and arbitrary characters in
the *name* allowed — percent-encoding then decoding is the identity),
parsing the URI produced by the Subfeed `uri` property for a live feed
recovers exactly the feed id and the name. -/
theorem C9_amended_roundtrip :
    ∀ (f : FeedM) (fid name : String) (p : Nat) (ch : String),
      f.feed_uri = "feed://" ++ fid →
      '/' ∉ fid.data → '?' ∉ fid.data → name ≠ "" →
      subfeed_uri (load_subfeed f (.str name) p ch) =
        some ("feed://" ++ fid ++ "/" ++ pyQuote name)
      ∧ _parse_feed_uri ("feed://" ++ fid ++ "/" ++ pyQuote name) = some (fid, some name, 0) := by
  intro f fid name p ch huri hfs hfq hname
  constructor
  · have hpre : pyStartsWith ("feed://" ++ fid) "feed://" = true := by
      unfold pyStartsWith
      rw [String.data_append]
      exact List.isPrefixOf_iff_prefix.mpr (List.prefix_append _ _)
    unfold subfeed_uri load_subfeed
    simp only [huri, hpre]
    simp
  · exact parse_feed_uri_quoted fid name hfs hfq hname

/-- C9 witness: feed id `"abc"` and a name containing a slash. -/
theorem C9_witness :
    subfeed_uri (load_subfeed liveFeed (.str "x/y") 0 "*local*") =
      some ("feed://" ++ "abc" ++ "/" ++ pyQuote "x/y")
    ∧ _parse_feed_uri ("feed://" ++ "abc" ++ "/" ++ pyQuote "x/y") =
        some ("abc", some "x/y", 0) :=
  C9_amended_roundtrip liveFeed "abc" "x/y" 0 "*local*" rfl (by decide) (by decide) (by decide)

/-! ### C7: delete -/

/-- C7 counterexample: after a successful `delete()` on a live Feed the
client does not mark the object unusable — the very same `Feed` value
still answers property reads and still constructs Subfeeds locally, with
no failure. -/
theorem C7_counterexample :
    FeedM.delete okDaemon emptyRegistry liveFeed =
      (Except.ok (), [⟨"feed/deleteFeed", Json.obj [("feedId", Json.str "abc")]⟩])
    ∧ (load_subfeed liveFeed (.str "~x") 0 "*local*").subfeed_hash = "x"
    ∧ liveFeed.is_writeable = true :=
  ⟨rfl, rfl, rfl⟩

/-- C7 amended: `delete()` on a live feed issues one `deleteFeed`
request, succeeding when the daemon reports success and raising the
delete-failure error (carrying the daemon's error payload) when the
daemon reports failure; on a feed whose URI does not start with
`feed://` (in particular a snapshot) it goes down the name-lookup path
and fails without any request when the registry has no such name; and
the client performs no invalidation — `load_subfeed` remains a pure
constructor around the unchanged `Feed` value. -/
theorem C7_amended_delete_behavior :
    (∀ (d : Daemon) (r : Registry) (f : FeedM) (fid : String),
        f.feed_uri = "feed://" ++ fid → '/' ∉ fid.data → '?' ∉ fid.data →
        jlookup (d ⟨"feed/deleteFeed", Json.obj [("feedId", .str fid)]⟩) "success" =
          some (Json.bool true) →
        FeedM.delete d r f =
          (Except.ok (), [⟨"feed/deleteFeed", Json.obj [("feedId", .str fid)]⟩]))
    ∧ (∀ (d : Daemon) (r : Registry) (f : FeedM) (fid : String) (sv : Json),
        f.feed_uri = "feed://" ++ fid → '/' ∉ fid.data → '?' ∉ fid.data →
        jlookup (d ⟨"feed/deleteFeed", Json.obj [("feedId", .str fid)]⟩) "success" = some sv →
        truthy sv = false →
        FeedM.delete d r f =
          (Except.error ("Unable to delete feed " ++ fid ++ ": " ++
             (match jlookup (d ⟨"feed/deleteFeed", Json.obj [("feedId", .str fid)]⟩) "error" with
              | some e => dumps e
              | none => "None")),
           [⟨"feed/deleteFeed", Json.obj [("feedId", .str fid)]⟩]))
    ∧ (∀ (d : Daemon) (r : Registry) (f : FeedM),
        pyStartsWith f.feed_uri "feed://" = false →
        r (Json.obj [("type", .str "feed_id_for_name"), ("feed_name", .str f.feed_uri)]) = none →
        FeedM.delete d r f =
          (Except.error ("Unable to load feed with name: " ++ f.feed_uri), []))
    ∧ (∀ (f : FeedM) (name : SubfeedName) (p : Nat) (ch : String),
        (load_subfeed f name p ch).feed = f ∧ (load_subfeed f name p ch).position = p) := by
  refine ⟨?_, ?_, ?_, fun f name p ch => ⟨rfl, rfl⟩⟩
  · intro d r f fid huri hfs hfq hsucc
    have hpre : pyStartsWith ("feed://" ++ fid) "feed://" = true := by
      unfold pyStartsWith
      rw [String.data_append]
      exact List.isPrefixOf_iff_prefix.mpr (List.prefix_append _ _)
    unfold FeedM.delete _delete_feed
    rw [huri]
    simp only [hpre, if_true]
    unfold _delete_feed_uri
    rw [parse_feed_uri_bare fid hfs hfq]
    simp only []
    rw [hsucc]
    simp [truthy]
  · intro d r f fid sv huri hfs hfq hsv hfalse
    have hpre : pyStartsWith ("feed://" ++ fid) "feed://" = true := by
      unfold pyStartsWith
      rw [String.data_append]
      exact List.isPrefixOf_iff_prefix.mpr (List.prefix_append _ _)
    unfold FeedM.delete _delete_feed
    rw [huri]
    simp only [hpre, if_true]
    unfold _delete_feed_uri
    rw [parse_feed_uri_bare fid hfs hfq]
    simp only []
    rw [hsv]
    simp [hfalse]
  · intro d r f hpre hreg
    unfold FeedM.delete _delete_feed
    simp only [hpre]
    unfold _get_feed_id_no_create
    rw [hreg]
    simp

/-- C7 witness: the live feed deletes successfully against a succeeding
daemon and raises against a failing daemon; the snapshot feed's delete
fails through the name path; `load_subfeed` keeps the feed. -/
theorem C7_witness :
    FeedM.delete okDaemon emptyRegistry liveFeed =
      (Except.ok (), [⟨"feed/deleteFeed", Json.obj [("feedId", Json.str "abc")]⟩])
    ∧ FeedM.delete failDaemon emptyRegistry liveFeed =
        (Except.error ("Unable to delete feed " ++ "abc" ++ ": " ++
           (match jlookup (failDaemon ⟨"feed/deleteFeed",
                Json.obj [("feedId", Json.str "abc")]⟩) "error" with
            | some e => dumps e
            | none => "None")),
         [⟨"feed/deleteFeed", Json.obj [("feedId", Json.str "abc")]⟩])
    ∧ FeedM.delete okDaemon emptyRegistry snapFeed =
        (Except.error ("Unable to load feed with name: " ++ "sha1://feedsnap"), [])
    ∧ (load_subfeed liveFeed (.str "~x") 0 "*local*").feed = liveFeed :=
  ⟨C7_amended_delete_behavior.1 okDaemon emptyRegistry liveFeed "abc" rfl (by decide) (by decide)
     rfl,
   C7_amended_delete_behavior.2.1 failDaemon emptyRegistry liveFeed "abc" (Json.bool false) rfl
     (by decide) (by decide) rfl rfl,
   C7_amended_delete_behavior.2.2.1 okDaemon emptyRegistry snapFeed rfl rfl,
   (C7_amended_delete_behavior.2.2.2 liveFeed (.str "~x") 0 "*local*").1⟩

/-! ### C6: `_parse_feed_uri` failure characterization -/

/-- C6 counterexample: the URI `fe:ed://x`, whose scheme segment before
`://` is `fe:ed` and not `feed`, is nevertheless parsed successfully
(yielding feed id `x`) because the source compares
`list0[0].replace(':', '')` — stripping every colon — against `feed`. -/
theorem C6_counterexample : _parse_feed_uri "fe:ed://x" = some ("x", none, 0) := by decide

/-- C6 amended: `_parse_feed_uri` fails exactly when, in the part before
the first `?`, fewer than three `/`-separated segments are present or the
first segment with all `:` removed differs from `feed`; on success it
returns the third segment as the feed id, the percent-decoded
`/`-rejoin of the remaining segments as the subfeed name (none when that
rejoin is empty), and position `0`. -/
theorem C6_amended_parse_characterization :
    ∀ uri : String,
      (_parse_feed_uri uri = none ↔
        (splitChar '/' ((splitChar '?' uri.data).headD [])).length < 3 ∨
        stripColons ((splitChar '/' ((splitChar '?' uri.data).headD [])).headD []) ≠ "feed".data)
      ∧ (∀ (feedId : String) (subName : Option String) (pos : Nat),
          _parse_feed_uri uri = some (feedId, subName, pos) →
          feedId = String.mk ((splitChar '/' ((splitChar '?' uri.data).headD [])).getD 2 [])
          ∧ pos = 0
          ∧ subName = (if (intercalateChar '/'
                ((splitChar '/' ((splitChar '?' uri.data).headD [])).drop 3)).isEmpty then none
              else some (String.mk (unquoteChars (intercalateChar '/'
                ((splitChar '/' ((splitChar '?' uri.data).headD [])).drop 3)))))) := by
  intro uri
  constructor
  · constructor
    · intro hnone
      by_contra hcon
      push_neg at hcon
      obtain ⟨h1, h2⟩ := hcon
      simp only [_parse_feed_uri] at hnone
      rw [if_pos (by omega), if_pos h2] at hnone
      simp at hnone
    · intro hcond
      simp only [_parse_feed_uri]
      rcases hcond with h | h
      · rw [if_neg (by omega)]
      · by_cases hlen : (splitChar '/' ((splitChar '?' uri.data).headD [])).length ≥ 3
        · rw [if_pos hlen, if_neg h]
        · rw [if_neg hlen]
  · intro feedId subName pos hsome
    simp only [_parse_feed_uri] at hsome
    by_cases hlen : (splitChar '/' ((splitChar '?' uri.data).headD [])).length ≥ 3
    · by_cases hsch : stripColons
          ((splitChar '/' ((splitChar '?' uri.data).headD [])).headD []) = "feed".data
      · rw [if_pos hlen, if_pos hsch] at hsome
        simp only [Option.some.injEq, Prod.mk.injEq] at hsome
        exact ⟨hsome.1.symm, hsome.2.2.symm, hsome.2.1.symm⟩
      · rw [if_pos hlen, if_neg hsch] at hsome
        simp at hsome
    · rw [if_neg hlen] at hsome
      simp at hsome

/-- C6 witness: a non-`feed` scheme fails; `feed://abc/x` succeeds with
the characterized components. -/
theorem C6_witness :
    _parse_feed_uri "sha1://xyz" = none
    ∧ (("abc" : String) =
        String.mk ((splitChar '/' ((splitChar '?' "feed://abc/x".data).headD [])).getD 2 [])
       ∧ (0 : Nat) = 0
       ∧ (some "x" : Option String) = (if (intercalateChar '/'
            ((splitChar '/' ((splitChar '?' "feed://abc/x".data).headD [])).drop 3)).isEmpty
          then none
          else some (String.mk (unquoteChars (intercalateChar '/'
            ((splitChar '/' ((splitChar '?' "feed://abc/x".data).headD [])).drop 3)))))) :=
  ⟨(C6_amended_parse_characterization "sha1://xyz").1.mpr (by decide),
   (C6_amended_parse_characterization "feed://abc/x").2 "abc" (some "x") 0 (by decide)⟩

/-! ### Sanity checks of the embedding on known values -/

/-- The standard SHA-1 test vector. -/
theorem sanity_sha1_abc :
    _sha1_of_string "abc" = "a9993e364706816aba3e25717850c26c9cd0d89d" := by decide

/-- A literal-hash subfeed name is used verbatim. -/
theorem sanity_tilde_hash : _subfeed_hash (.str "~deadbeef") = "deadbeef" := by decide

/-- Percent round trip on a concrete mixed string. -/
theorem sanity_quote_roundtrip : pyUnquote (pyQuote "a b/é%") = "a b/é%" := by decide

/-- `quote` keeps slashes and encodes spaces, non-ASCII and `%`. -/
theorem sanity_quote_value : pyQuote "a b/é%" = "a%20b/%C3%A9%25" := by decide

/-- Concrete URI parses. -/
theorem sanity_parse_values :
    _parse_feed_uri "feed://abc" = some ("abc", none, 0)
    ∧ _parse_feed_uri "feed://abc/x/y?q=1" = some ("abc", some "x/y", 0)
    ∧ _parse_feed_uri "sha1://abc" = none
    ∧ _parse_feed_uri "feed:/abc" = none := by
  refine ⟨by decide, by decide, by decide, by decide⟩
